import Mathlib

/-!
Shallow embedding of `babyai/models/vae_task_encoder.py` (the task-embedding
VAE: `build_sequential`, `VAETaskEncoder`, `TaskDecoder`, `VAE`).

Modelling conventions:
* Tensors of rank 1–3 over exact rationals `ℚ`.  The Python code only ever
  manipulates rank-1/2/3 tensors on the paths reachable from its entry points,
  and every claim under scrutiny concerns ranks 1–3.
* External library functions (torch / torchkit) that are not part of this
  repository are passed in as parameters:
  - `tanhFn : ℚ → ℚ` models `torch.tanh` (elementwise);
  - `lnFn : ℕ → List ℚ → List ℚ` models `torchkit.modules.LayerNorm dim`
    applied to one feature vector (shape-preserving normalisation);
  - `expFn : ℚ → ℚ` models `torch.exp` (elementwise);
  - `randnLike : Tensor → Tensor` models `torch.randn_like` (a fresh
    standard-normal draw of the same shape as its argument);
  - `mk : ℕ → ℕ → List (List ℚ) × List ℚ` models
    `_init_layer(nn.Linear(i, o))`: it supplies the weight matrix (o rows of
    width i) and bias vector (width o) of a freshly created linear layer
    (the orthogonal/zero initialisation is torch-internal randomness).
* Python exceptions are modelled as `Except String`, the message recording
  which exception class the interpreter would raise.
-/

/-- Rank-1/2/3 tensors over `ℚ` (innermost axis = feature axis, `dim=-1`). -/
inductive Tensor where
  | t1 (x : List ℚ)
  | t2 (x : List (List ℚ))
  | t3 (x : List (List (List ℚ)))
deriving DecidableEq, Repr

namespace Tensor

/-- Rank of a tensor: `x.dim()` / `len(x.shape)`. -/
def rank : Tensor → ℕ
  | t1 _ => 1
  | t2 _ => 2
  | t3 _ => 3

/-- Elementwise map over every scalar entry (torch elementwise op). -/
def mapScalar (f : ℚ → ℚ) : Tensor → Tensor
  | t1 x => t1 (x.map f)
  | t2 x => t2 (x.map (·.map f))
  | t3 x => t3 (x.map (·.map (·.map f)))

/-- Map a function over every innermost feature vector.  This is how a
feed-forward stack (acting on the last axis) is lifted to a batched tensor. -/
def mapVec (f : List ℚ → List ℚ) : Tensor → Tensor
  | t1 x => t1 (f x)
  | t2 x => t2 (x.map f)
  | t3 x => t3 (x.map (·.map f))

/-- Elementwise combination of two same-rank tensors (torch `+`, `*` on
same-shape tensors; mismatched ranks are not modelled, hence `Option`). -/
def zipWith (f : ℚ → ℚ → ℚ) : Tensor → Tensor → Option Tensor
  | t1 a, t1 b => some (t1 (List.zipWith f a b))
  | t2 a, t2 b => some (t2 (List.zipWith (List.zipWith f) a b))
  | t3 a, t3 b => some (t3 (List.zipWith (List.zipWith (List.zipWith f)) a b))
  | _, _ => none

/-- The scalar at a multi-index, when the index has the right arity and is in
bounds. -/
def entry : Tensor → List ℕ → Option ℚ
  | t1 x, [i] => x[i]?
  | t2 x, [i, j] => x[i]?.bind (fun r => r[j]?)
  | t3 x, [i, j, k] => x[i]?.bind (fun p => p[j]?.bind (fun r => r[k]?))
  | _, _ => none

/-- Shape predicate `t.isShape [d₁, …, dₖ]`: `t` has rank `k` and is rectangular with those
dimensions. -/
def isShape : Tensor → List ℕ → Bool
  | t1 x, [n] => x.length == n
  | t2 x, [m, n] => x.length == m && x.all (fun r => r.length == n)
  | t3 x, [s, m, n] =>
      x.length == s && x.all (fun p => p.length == m && p.all (fun r => r.length == n))
  | _, _ => false

/-- Embedding of `torch.squeeze(t, 0)`: drop axis 0 when it has size 1, otherwise return
the tensor unchanged (rank-1 squeezing to rank 0 is outside the model and
never reached by the embedded code). -/
def squeeze0 : Tensor → Tensor
  | t2 [x] => t1 x
  | t3 [x] => t2 x
  | t => t

end Tensor

/-- Embedding of `torch.cat([a, b], dim=-1)`: concatenate along the last axis.  Torch
requires equal ranks and equal leading dimensions and raises a
`RuntimeError` otherwise. -/
def tcat : Tensor → Tensor → Except String Tensor
  | .t1 a, .t1 b => .ok (.t1 (a ++ b))
  | .t2 a, .t2 b =>
      if a.length == b.length then .ok (.t2 (List.zipWith (· ++ ·) a b))
      else .error "RuntimeError: torch.cat size mismatch"
  | .t3 a, .t3 b =>
      if a.length == b.length
          && (List.zip a b).all (fun p => p.1.length == p.2.length) then
        .ok (.t3 (List.zipWith (List.zipWith (· ++ ·)) a b))
      else .error "RuntimeError: torch.cat size mismatch"
  | _, _ => .error "RuntimeError: torch.cat rank mismatch"

/-- Embedding of `torch.cat([a, b, c], dim=-1)`. -/
def tcat3 (a b c : Tensor) : Except String Tensor := do
  let ab ← tcat a b
  tcat ab c

/-! ## `build_sequential` (vae_task_encoder.py lines 11–38) -/

/-- One module of an `nn.Sequential` stack as produced by `build_sequential`:
a linear layer (with its weights, from `_init_layer(nn.Linear(..))`), a
`torchkit.modules.LayerNorm(dim)`, or a nonlinearity (`nn.ReLU` / `nn.Tanh`). -/
inductive Layer where
  | linear (weight : List (List ℚ)) (bias : List ℚ)
  | layerNorm (dim : ℕ)
  | relu
  | tanh
deriving DecidableEq, Repr

/-- Dot product of a weight row with an input vector. -/
def dotq (row x : List ℚ) : ℚ := (List.zipWith (· * ·) row x).sum

/-- Apply one module to one feature vector.  `nn.Linear` computes `W·x + b`
(one output per weight row); `LayerNorm` is the external `torchkit` module,
modelled by the parameter `lnFn`; `nn.ReLU` is `max 0 ·`; `nn.Tanh` is the
external `torch.tanh`, modelled by the parameter `tanhFn`. -/
def applyLayer (tanhFn : ℚ → ℚ) (lnFn : ℕ → List ℚ → List ℚ) :
    Layer → List ℚ → List ℚ
  | .linear w b, x => List.zipWith (fun row bi => dotq row x + bi) w b
  | .layerNorm n, x => lnFn n x
  | .relu, x => x.map (fun q => max 0 q)
  | .tanh, x => x.map tanhFn

/-- Apply an `nn.Sequential` stack (modules in order) to one feature vector. -/
def applySeq (tanhFn : ℚ → ℚ) (lnFn : ℕ → List ℚ → List ℚ)
    (layers : List Layer) (x : List ℚ) : List ℚ :=
  layers.foldl (fun acc l => applyLayer tanhFn lnFn l acc) x

/-- The loop `for i in range(len(hiddens) - 1)` of `build_sequential`:
for each consecutive pair of widths append `nonlin`, an initialised
`nn.Linear(hiddens[i], hiddens[i+1])` and, when `layer_norm`, a
`LayerNorm(hiddens[i+1])`.  The recursion carries `prev = hiddens[i]`. -/
def buildLoop (mk : ℕ → ℕ → List (List ℚ) × List ℚ) (nonlin : Layer)
    (layer_norm : Bool) : ℕ → List ℕ → List Layer
  | _, [] => []
  | prev, h :: rest =>
      [nonlin, Layer.linear (mk prev h).1 (mk prev h).2]
        ++ (if layer_norm then [Layer.layerNorm h] else [])
        ++ buildLoop mk nonlin layer_norm h rest

/-- Embedding of `build_sequential(num_inputs, hiddens, activation="relu",
layer_norm=True, output_activation=False)`.

The Python function first selects the nonlinearity (raising
`ValueError(f"Unknown activation option {activation}!")` for anything other
than `"relu"`/`"tanh"` — the spec's `UnsupportedActivation`), then asserts
`len(hiddens) > 0` (an `AssertionError` when empty), then assembles
`Linear(num_inputs, hiddens[0])`, an optional `LayerNorm(hiddens[0])`, the
loop over consecutive hidden widths, and an optional trailing nonlinearity.
Weights of each linear layer are supplied by `mk` (see the module docstring). -/
def build_sequential (mk : ℕ → ℕ → List (List ℚ) × List ℚ)
    (num_inputs : ℕ) (hiddens : List ℕ) (activation : String)
    (layer_norm : Bool := true) (output_activation : Bool := false) :
    Except String (List Layer) := do
  let nonlin ← match activation with
    | "relu" => Except.ok Layer.relu
    | "tanh" => Except.ok Layer.tanh
    | _ => Except.error ("ValueError: Unknown activation option " ++ activation ++ "!")
  match hiddens with
  | [] => Except.error "AssertionError: len(hiddens) > 0"
  | h0 :: rest =>
      let first := [Layer.linear (mk num_inputs h0).1 (mk num_inputs h0).2]
        ++ (if layer_norm then [Layer.layerNorm h0] else [])
      let mids := buildLoop mk nonlin layer_norm h0 rest
      let lastA := if output_activation then [nonlin] else []
      Except.ok (first ++ mids ++ lastA)

/-! ## `VAETaskEncoder` (vae_task_encoder.py lines 41–140) -/

/-- State of a constructed `VAETaskEncoder` (its `self.*` attributes).
`rnn_hidden_dim` is `none` when the attribute was never assigned — which is
always the case, since `__init__` hardcodes `self.use_rnn = False` and
`self.rnn_hidden_dim` is assigned only inside the `if self.use_rnn:` branch. -/
structure VAETaskEncoder where
  use_rnn : Bool
  task_emb_dim : ℕ
  layer_norm : Bool
  input_fc : Option (List Layer)
  output_fc : List Layer
  rnn_hidden_dim : Option ℕ
deriving DecidableEq, Repr

namespace VAETaskEncoder

/-- Embedding of `VAETaskEncoder.__init__`.  Only the `else` (non-recurrent)
branch is live because `self.use_rnn = False` is hardcoded.  Note that Python
evaluates the argument expression `hiddens[0]` before calling
`build_sequential`, so an empty `hiddens` raises `IndexError` here; and that
the two `build_sequential` calls omit the `layer_norm` keyword, so its
default `True` is used regardless of the constructor's `layer_norm` flag. -/
def init (mk : ℕ → ℕ → List (List ℚ) × List ℚ)
    (obs_dim act_dim rew_dim task_embedding_dim : ℕ) (hiddens : List ℕ)
    (activation : String) (layer_norm : Bool) :
    Except String VAETaskEncoder := do
  let use_rnn := false
  let input_dim := obs_dim + act_dim + rew_dim
  match hiddens with
  | [] => Except.error "IndexError: list index out of range"
  | h0 :: rest =>
      let input_fc ← build_sequential mk input_dim [h0] activation true true
      let output_fc ←
        build_sequential mk h0 (rest ++ [task_embedding_dim * 2]) activation true true
      Except.ok
        { use_rnn := use_rnn
          task_emb_dim := task_embedding_dim
          layer_norm := layer_norm
          input_fc := some input_fc
          output_fc := output_fc
          rnn_hidden_dim := none }

/-- Embedding of `VAETaskEncoder.init_hidden(batch_size=1)`:
`torch.zeros(batch_size, self.rnn_hidden_dim)`.  When the attribute
`rnn_hidden_dim` was never assigned, attribute lookup raises
`AttributeError`. -/
def init_hidden (self : VAETaskEncoder) (batch_size : ℕ := 1) :
    Except String Tensor :=
  match self.rnn_hidden_dim with
  | none =>
      Except.error
        "AttributeError: 'VAETaskEncoder' object has no attribute 'rnn_hidden_dim'"
  | some d => Except.ok (.t2 (List.replicate batch_size (List.replicate d 0)))

/-- Embedding of `VAETaskEncoder.reparameterise(mu, log_var)`:
`std = torch.exp(0.5 * log_var)`, `eps = torch.randn_like(std)` (the fresh
standard-normal draw, supplied by the `randnLike` parameter),
`sample = mu + (eps * std)`.  The operation keeps no internal state; it is a
pure function of its inputs and the supplied draw.  `none` would require
mismatched ranks, which torch's elementwise ops reject. -/
def reparameterise (expFn : ℚ → ℚ) (randnLike : Tensor → Tensor)
    (mu log_var : Tensor) : Option Tensor :=
  let std := log_var.mapScalar (fun v => expFn ((1 : ℚ) / 2 * v))
  let eps := randnLike std
  (eps.zipWith (· * ·) std).bind (fun es => mu.zipWith (· + ·) es)

/-- First half of `VAETaskEncoder.forward` (lines 85–121), up to and
including `x = self.output_fc(output)` — the raw pre-split output of the
output stack.  Steps: `torch.cat([obs, act, rew], dim=-1)`; apply `input_fc`
when present; when rank < 3, record `seq_length = 1` and `unsqueeze(0)`;
skip the RNN (`use_rnn` is `False`, so `output = x`; the recurrent branch
would call the external `nn.GRU` and is unreachable from `init`); squeeze
axis 0 back out when it was added; apply `output_fc`. -/
def preOutput (tanhFn : ℚ → ℚ) (lnFn : ℕ → List ℚ → List ℚ)
    (self : VAETaskEncoder) (obs act rew : Tensor) :
    Except String Tensor := do
  let x ← tcat3 obs act rew
  let x := match self.input_fc with
    | some fc => x.mapVec (applySeq tanhFn lnFn fc)
    | none => x
  -- reshape to (seq_length, N, *): `if len(x.shape) < 3: x = x.unsqueeze(0)`
  let (seq_length?, x) :=
    match x with
    | .t1 v => (some 1, Tensor.t2 [v])
    | .t2 m => (some 1, Tensor.t3 [m])
    | .t3 m => ((none : Option ℕ), Tensor.t3 m)
  let output ←
    if self.use_rnn then
      Except.error "unmodelled: nn.GRU (unreachable: init sets use_rnn = False)"
    else Except.ok x
  -- `if seq_length is not None and seq_length == 1: output = output.squeeze(0)`
  let output := match seq_length? with
    | some 1 => output.squeeze0
    | _ => output
  Except.ok (output.mapVec (applySeq tanhFn lnFn self.output_fc))

/-- Embedding of `VAETaskEncoder.forward(obs, act, rew, hiddens=None)` on the
live (non-recurrent) path; returns `(task_emb, mu, log_var, z)`.  After the
output stack, `mu`/`log_var` are the `[..., :task_emb_dim]` and
`[..., task_emb_dim:]` slices (the `else` branch indexes with two axes, so a
rank-1 tensor raises `IndexError`); `task_emb = torch.cat([mu, log_var],
dim=-1)`; `z = self.reparameterise(mu, log_var)`. -/
def forward (tanhFn : ℚ → ℚ) (lnFn : ℕ → List ℚ → List ℚ) (expFn : ℚ → ℚ)
    (randnLike : Tensor → Tensor) (self : VAETaskEncoder)
    (obs act rew : Tensor) :
    Except String (Tensor × Tensor × Tensor × Tensor) := do
  let x ← self.preOutput tanhFn lnFn obs act rew
  -- get mu and log_var from output
  let (mu, log_var) ←
    match x with
    | .t3 m =>
        Except.ok (Tensor.t3 (m.map (·.map (List.take self.task_emb_dim))),
                   Tensor.t3 (m.map (·.map (List.drop self.task_emb_dim))))
    | .t2 m =>
        Except.ok (Tensor.t2 (m.map (List.take self.task_emb_dim)),
                   Tensor.t2 (m.map (List.drop self.task_emb_dim)))
    | .t1 _ => Except.error "IndexError: too many indices for tensor of dimension 1"
  -- task embedding as concat of mu and log var
  let task_emb ← tcat mu log_var
  -- get sample from latent space
  let z ← match reparameterise expFn randnLike mu log_var with
    | some z => Except.ok z
    | none => Except.error "unreachable: mu and log_var share their rank"
  Except.ok (task_emb, mu, log_var, z)

end VAETaskEncoder

/-! ## `TaskDecoder` (lines 144–160) and `VAE` (lines 162–166) -/

/-- State of a constructed `TaskDecoder`. -/
structure TaskDecoder where
  obs_dim : ℕ
  rew_dim : ℕ
  decoder : List Layer
deriving DecidableEq, Repr

namespace TaskDecoder

/-- Embedding of `TaskDecoder.__init__(task_embedding_dim, obs_dim, act_dim,
rew_dim, activation)`: one stack
`build_sequential(task_embedding_dim + obs_dim + act_dim, [obs_dim + rew_dim],
activation)` with the defaults `layer_norm=True`, `output_activation=False`. -/
def init (mk : ℕ → ℕ → List (List ℚ) × List ℚ)
    (task_embedding_dim obs_dim act_dim rew_dim : ℕ) (activation : String) :
    Except String TaskDecoder := do
  let dec ←
    build_sequential mk (task_embedding_dim + obs_dim + act_dim)
      [obs_dim + rew_dim] activation true false
  Except.ok { obs_dim := obs_dim, rew_dim := rew_dim, decoder := dec }

/-- Raw decoder-stack output of `TaskDecoder.forward` (lines 151–152):
`x = torch.cat([task_emb, obs, act], dim=-1)`, then `out = self.decoder(x)`. -/
def rawOutput (tanhFn : ℚ → ℚ) (lnFn : ℕ → List ℚ → List ℚ)
    (self : TaskDecoder) (task_emb obs act : Tensor) :
    Except String Tensor := do
  let x ← tcat3 task_emb obs act
  Except.ok (x.mapVec (applySeq tanhFn lnFn self.decoder))

/-- Embedding of `TaskDecoder.forward(task_emb, obs, act)`.  The stack is
applied first; only then does the code branch on `out.dim()`.  For rank 2 and
3 the final axis is split at `self.obs_dim`; for any other rank neither
branch assigns `obs_pred`/`rew_pred`, and the `return` raises
`UnboundLocalError` — after the decoder stack has already run. -/
def forward (tanhFn : ℚ → ℚ) (lnFn : ℕ → List ℚ → List ℚ)
    (self : TaskDecoder) (task_emb obs act : Tensor) :
    Except String (Tensor × Tensor) := do
  let out ← self.rawOutput tanhFn lnFn task_emb obs act
  match out with
  | .t2 m =>
      Except.ok (Tensor.t2 (m.map (List.take self.obs_dim)),
                 Tensor.t2 (m.map (List.drop self.obs_dim)))
  | .t3 m =>
      Except.ok (Tensor.t3 (m.map (·.map (List.take self.obs_dim))),
                 Tensor.t3 (m.map (·.map (List.drop self.obs_dim))))
  | _ =>
      Except.error
        "UnboundLocalError: local variable 'obs_pred' referenced before assignment"

end TaskDecoder

/-- State of a constructed `VAE`. -/
structure VAE where
  encoder : VAETaskEncoder
  decoder : TaskDecoder
deriving DecidableEq, Repr

/-- Embedding of `VAE.__init__(task_emb_dim, obs_dim, act_dim, rew_dim,
n_agents, hiddens, activation, layer_norm)`:
`self.encoder = VAETaskEncoder(obs_dim, act_dim, rew_dim, task_emb_dim,
hiddens, activation, layer_norm)` and
`self.decoder = TaskDecoder(task_emb_dim, obs_dim, act_dim, n_agents,
activation)` — note that the decoder's `rew_dim` argument receives
`n_agents`, not `rew_dim`. -/
def VAE.init (mk : ℕ → ℕ → List (List ℚ) × List ℚ)
    (task_emb_dim obs_dim act_dim rew_dim n_agents : ℕ) (hiddens : List ℕ)
    (activation : String) (layer_norm : Bool) : Except String VAE := do
  let encoder ←
    VAETaskEncoder.init mk obs_dim act_dim rew_dim task_emb_dim hiddens
      activation layer_norm
  let decoder ← TaskDecoder.init mk task_emb_dim obs_dim act_dim n_agents activation
  Except.ok { encoder := encoder, decoder := decoder }

/-! ## Well-formedness of the external parameters -/

/-- Contract of the linear-layer factory `mk`, mirroring `nn.Linear(i, o)`:
the weight matrix has `o` rows of width `i` and the bias has width `o`. -/
def WFmk (mk : ℕ → ℕ → List (List ℚ) × List ℚ) : Prop :=
  ∀ i o, (mk i o).1.length = o ∧ (∀ r ∈ (mk i o).1, r.length = i) ∧
    (mk i o).2.length = o

/-- Contract of the external `LayerNorm`: it preserves the width of its
input vector. -/
def WFln (lnFn : ℕ → List ℚ → List ℚ) : Prop :=
  ∀ n x, (lnFn n x).length = x.length

/-- Contract of the external `torch.randn_like`: the draw has the shape of
its argument. -/
def WFrandn (randnLike : Tensor → Tensor) : Prop :=
  ∀ t s, t.isShape s = true → (randnLike t).isShape s = true

/-- All-zero weights and biases: one concrete admissible value for the `mk`
parameter, used to instantiate universally quantified theorems. -/
def zeroMk : ℕ → ℕ → List (List ℚ) × List ℚ := fun i o =>
  (List.replicate o (List.replicate i 0), List.replicate o 0)

/-- Identity normalisation: one concrete admissible value for the `lnFn`
parameter. -/
def idLn : ℕ → List ℚ → List ℚ := fun _ x => x

theorem zeroMk_wf : WFmk zeroMk := by
  intro i o
  refine ⟨by simp [zeroMk], ?_, by simp [zeroMk]⟩
  intro r hr
  simp only [zeroMk, List.mem_replicate] at hr
  simp [hr.2]

theorem idLn_wf : WFln idLn := fun _ _ => rfl

theorem id_randn_wf : WFrandn id := fun _ _ h => h

/-! ## Width lemmas for `applySeq` and `build_sequential` -/

theorem applyLayer_linear_length (tanhFn : ℚ → ℚ) (lnFn : ℕ → List ℚ → List ℚ)
    (w : List (List ℚ)) (b : List ℚ) (x : List ℚ) :
    (applyLayer tanhFn lnFn (.linear w b) x).length = min w.length b.length := by
  simp [applyLayer]

theorem applySeq_append (tanhFn : ℚ → ℚ) (lnFn : ℕ → List ℚ → List ℚ)
    (l₁ l₂ : List Layer) (x : List ℚ) :
    applySeq tanhFn lnFn (l₁ ++ l₂) x =
      applySeq tanhFn lnFn l₂ (applySeq tanhFn lnFn l₁ x) := by
  simp [applySeq, List.foldl_append]

theorem applySeq_buildLoop_length (tanhFn : ℚ → ℚ) (lnFn : ℕ → List ℚ → List ℚ)
    (hmk : WFmk mk) (hln : WFln lnFn) (nonlin : Layer)
    (hnl : nonlin = Layer.relu ∨ nonlin = Layer.tanh) (lnorm : Bool) :
    ∀ (rest : List ℕ) (prev : ℕ) (x : List ℚ), x.length = prev →
      (applySeq tanhFn lnFn (buildLoop mk nonlin lnorm prev rest) x).length =
        rest.getLastD prev := by
  intro rest
  induction rest with
  | nil => intro prev x hx; simpa [buildLoop, applySeq] using hx
  | cons h rs ih =>
      intro prev x _
      rw [buildLoop, List.getLastD_cons]
      have hsplit :
          [nonlin, Layer.linear (mk prev h).1 (mk prev h).2]
              ++ (if lnorm then [Layer.layerNorm h] else [])
              ++ buildLoop mk nonlin lnorm h rs
            = ([nonlin, Layer.linear (mk prev h).1 (mk prev h).2]
              ++ (if lnorm then [Layer.layerNorm h] else []))
              ++ buildLoop mk nonlin lnorm h rs := by
        simp
      rw [hsplit, applySeq_append]
      apply ih h
      -- the prefix [nonlin, linear, (layerNorm)?] outputs a vector of width h
      have hmk' := hmk prev h
      rcases hnl with hnl | hnl <;> subst hnl <;> cases lnorm <;>
        simp [applySeq, applyLayer, hln _ _, hmk'.1, hmk'.2.2]

theorem applySeq_build_sequential_length (tanhFn : ℚ → ℚ)
    (lnFn : ℕ → List ℚ → List ℚ) (hmk : WFmk mk) (hln : WFln lnFn)
    {num_inputs : ℕ} {h0 : ℕ} {rest : List ℕ} {activation : String}
    {lnorm oa : Bool} {layers : List Layer}
    (hb : build_sequential mk num_inputs (h0 :: rest) activation lnorm oa
            = .ok layers)
    (x : List ℚ) :
    (applySeq tanhFn lnFn layers x).length = rest.getLastD h0 := by
  by_cases hr : activation = "relu"
  case pos =>
    subst hr
    simp only [build_sequential, bind, Except.bind] at hb
    cases hb
    rw [applySeq_append, applySeq_append]
    have hmk' := hmk num_inputs h0
    have hfirst :
        (applySeq tanhFn lnFn
          ([Layer.linear (mk num_inputs h0).1 (mk num_inputs h0).2]
            ++ (if lnorm then [Layer.layerNorm h0] else [])) x).length = h0 := by
      cases lnorm <;> simp [applySeq, applyLayer, hln _ _, hmk'.1, hmk'.2.2]
    have hmid := applySeq_buildLoop_length tanhFn lnFn hmk hln Layer.relu
      (Or.inl rfl) lnorm rest h0 _ hfirst
    cases oa
    · simpa [applySeq] using hmid
    · simpa [applySeq, applyLayer] using hmid
  case neg =>
    by_cases ht : activation = "tanh"
    case pos =>
      subst ht
      simp only [build_sequential, bind, Except.bind] at hb
      cases hb
      rw [applySeq_append, applySeq_append]
      have hmk' := hmk num_inputs h0
      have hfirst :
          (applySeq tanhFn lnFn
            ([Layer.linear (mk num_inputs h0).1 (mk num_inputs h0).2]
              ++ (if lnorm then [Layer.layerNorm h0] else [])) x).length = h0 := by
        cases lnorm <;> simp [applySeq, applyLayer, hln _ _, hmk'.1, hmk'.2.2]
      have hmid := applySeq_buildLoop_length tanhFn lnFn hmk hln Layer.tanh
        (Or.inr rfl) lnorm rest h0 _ hfirst
      cases oa
      · simpa [applySeq] using hmid
      · simpa [applySeq, applyLayer] using hmid
    case neg =>
      exfalso
      simp only [build_sequential, bind, Except.bind] at hb
      exact Except.noConfusion hb

/-! ## Shape lemmas for tensors -/

theorem isShape_t1 {x : List ℚ} {n : ℕ} :
    (Tensor.t1 x).isShape [n] = true ↔ x.length = n := by
  simp [Tensor.isShape]

theorem isShape_t2 {m : List (List ℚ)} {b n : ℕ} :
    (Tensor.t2 m).isShape [b, n] = true ↔
      m.length = b ∧ ∀ r ∈ m, r.length = n := by
  simp [Tensor.isShape]

theorem isShape_t3 {m : List (List (List ℚ))} {s b n : ℕ} :
    (Tensor.t3 m).isShape [s, b, n] = true ↔
      m.length = s ∧ ∀ p ∈ m, p.length = b ∧ ∀ r ∈ p, r.length = n := by
  simp [Tensor.isShape]

theorem mem_zipWith {α β γ : Type _} {f : α → β → γ} :
    ∀ {l₁ : List α} {l₂ : List β} {c : γ}, c ∈ List.zipWith f l₁ l₂ →
      ∃ a b, a ∈ l₁ ∧ b ∈ l₂ ∧ c = f a b := by
  intro l₁
  induction l₁ with
  | nil => intro l₂ c h; simp at h
  | cons a as ih =>
      intro l₂ c h
      cases l₂ with
      | nil => simp at h
      | cons b bs =>
          simp only [List.zipWith_cons_cons, List.mem_cons] at h
          rcases h with h | h
          · exact ⟨a, b, List.mem_cons_self .., List.mem_cons_self .., h⟩
          · rcases ih h with ⟨a', b', ha, hb, hc⟩
            exact ⟨a', b', List.mem_cons_of_mem _ ha, List.mem_cons_of_mem _ hb, hc⟩

theorem tcat_shape2 {x y : Tensor} {b w₁ w₂ : ℕ}
    (hx : x.isShape [b, w₁] = true) (hy : y.isShape [b, w₂] = true) :
    ∃ z, tcat x y = .ok z ∧ z.isShape [b, w₁ + w₂] = true := by
  cases x <;> cases y <;> simp [Tensor.isShape] at hx hy
  case t2.t2 a c =>
    obtain ⟨ha, hra⟩ := hx
    obtain ⟨hc, hrc⟩ := hy
    refine ⟨.t2 (List.zipWith (· ++ ·) a c), ?_, ?_⟩
    · simp [tcat, ha, hc]
    · rw [isShape_t2]
      constructor
      · simp [ha, hc]
      · intro r hr
        rcases mem_zipWith hr with ⟨r₁, r₂, h₁, h₂, rfl⟩
        simp [hra _ h₁, hrc _ h₂]

theorem tcat_shape3 {x y : Tensor} {s b w₁ w₂ : ℕ}
    (hx : x.isShape [s, b, w₁] = true) (hy : y.isShape [s, b, w₂] = true) :
    ∃ z, tcat x y = .ok z ∧ z.isShape [s, b, w₁ + w₂] = true := by
  cases x <;> cases y <;> simp [Tensor.isShape] at hx hy
  case t3.t3 a c =>
    obtain ⟨ha, hpa⟩ := hx
    obtain ⟨hc, hpc⟩ := hy
    refine ⟨.t3 (List.zipWith (List.zipWith (· ++ ·)) a c), ?_, ?_⟩
    · have hz : (List.zip a c).all (fun p => p.1.length == p.2.length) = true := by
        rw [List.all_eq_true]
        intro p hp
        have := List.of_mem_zip hp
        simp [(hpa _ this.1).1, (hpc _ this.2).1]
      simp [tcat, ha, hc, hz]
    · rw [isShape_t3]
      constructor
      · simp [ha, hc]
      · intro p hp
        rcases mem_zipWith hp with ⟨p₁, p₂, h₁, h₂, rfl⟩
        constructor
        · simp [(hpa _ h₁).1, (hpc _ h₂).1]
        · intro r hr
          rcases mem_zipWith hr with ⟨r₁, r₂, hr₁, hr₂, rfl⟩
          simp [(hpa _ h₁).2 _ hr₁, (hpc _ h₂).2 _ hr₂]

theorem tcat3_shape2 {x y z : Tensor} {b w₁ w₂ w₃ : ℕ}
    (hx : x.isShape [b, w₁] = true) (hy : y.isShape [b, w₂] = true)
    (hz : z.isShape [b, w₃] = true) :
    ∃ u, tcat3 x y z = .ok u ∧ u.isShape [b, w₁ + w₂ + w₃] = true := by
  obtain ⟨u₁, h₁, hs₁⟩ := tcat_shape2 hx hy
  obtain ⟨u₂, h₂, hs₂⟩ := tcat_shape2 hs₁ hz
  exact ⟨u₂, by simp [tcat3, h₁, h₂, bind, Except.bind], hs₂⟩

theorem tcat3_shape3 {x y z : Tensor} {s b w₁ w₂ w₃ : ℕ}
    (hx : x.isShape [s, b, w₁] = true) (hy : y.isShape [s, b, w₂] = true)
    (hz : z.isShape [s, b, w₃] = true) :
    ∃ u, tcat3 x y z = .ok u ∧ u.isShape [s, b, w₁ + w₂ + w₃] = true := by
  obtain ⟨u₁, h₁, hs₁⟩ := tcat_shape3 hx hy
  obtain ⟨u₂, h₂, hs₂⟩ := tcat_shape3 hs₁ hz
  exact ⟨u₂, by simp [tcat3, h₁, h₂, bind, Except.bind], hs₂⟩

theorem mapVec_shape2 {m : List (List ℚ)} {b n w : ℕ} {f : List ℚ → List ℚ}
    (hm : (Tensor.t2 m).isShape [b, n] = true)
    (hf : ∀ v : List ℚ, (f v).length = w) :
    ((Tensor.t2 m).mapVec f).isShape [b, w] = true := by
  rw [isShape_t2] at hm
  rw [Tensor.mapVec, isShape_t2]
  exact ⟨by simp [hm.1], by intro r hr; rcases List.mem_map.1 hr with ⟨v, _, rfl⟩; exact hf v⟩

theorem mapVec_shape3 {m : List (List (List ℚ))} {s b n w : ℕ}
    {f : List ℚ → List ℚ} (hm : (Tensor.t3 m).isShape [s, b, n] = true)
    (hf : ∀ v : List ℚ, (f v).length = w) :
    ((Tensor.t3 m).mapVec f).isShape [s, b, w] = true := by
  rw [isShape_t3] at hm
  rw [Tensor.mapVec, isShape_t3]
  refine ⟨by simp [hm.1], ?_⟩
  intro p hp
  rcases List.mem_map.1 hp with ⟨p₀, hp₀, rfl⟩
  refine ⟨by simp [(hm.2 _ hp₀).1], ?_⟩
  intro r hr
  rcases List.mem_map.1 hr with ⟨v, _, rfl⟩
  exact hf v

theorem mapVec_shape_pres {t : Tensor} {s : List ℕ} {f : List ℚ → List ℚ}
    (hf : ∀ v : List ℚ, (f v).length = v.length) (h : t.isShape s = true) :
    (t.mapVec f).isShape s = true := by
  cases t <;> rcases s with _ | ⟨d₁, _ | ⟨d₂, _ | ⟨d₃, _ | ⟨d₄, rest⟩⟩⟩⟩ <;>
    simp [Tensor.isShape, Tensor.mapVec] at h ⊢
  · simp [hf, h]
  · refine ⟨h.1, ?_⟩
    intro r hr
    rw [hf]
    exact h.2 _ hr
  · refine ⟨h.1, ?_⟩
    intro p hp
    refine ⟨(h.2 _ hp).1, ?_⟩
    intro r hr
    rw [hf]
    exact (h.2 _ hp).2 _ hr

theorem mapScalar_eq_mapVec (f : ℚ → ℚ) (t : Tensor) :
    t.mapScalar f = t.mapVec (List.map f) := by
  cases t <;> rfl

theorem mapScalar_shape {t : Tensor} {s : List ℕ} {f : ℚ → ℚ}
    (h : t.isShape s = true) : (t.mapScalar f).isShape s = true := by
  rw [mapScalar_eq_mapVec]
  exact mapVec_shape_pres (by simp) h

theorem zipWith_shape {f : ℚ → ℚ → ℚ} {t u : Tensor} {s : List ℕ}
    (ht : t.isShape s = true) (hu : u.isShape s = true) :
    ∃ v, t.zipWith f u = some v ∧ v.isShape s = true := by
  cases t <;> cases u <;>
    rcases s with _ | ⟨d₁, _ | ⟨d₂, _ | ⟨d₃, _ | ⟨d₄, rest⟩⟩⟩⟩ <;>
    simp [Tensor.isShape] at ht hu
  · exact ⟨_, rfl, by simp [Tensor.isShape, ht, hu]⟩
  · refine ⟨_, rfl, ?_⟩
    rw [isShape_t2]
    refine ⟨by simp [ht.1, hu.1], ?_⟩
    intro r hr
    rcases mem_zipWith hr with ⟨r₁, r₂, h₁, h₂, rfl⟩
    simp [ht.2 _ h₁, hu.2 _ h₂]
  · refine ⟨_, rfl, ?_⟩
    rw [isShape_t3]
    refine ⟨by simp [ht.1, hu.1], ?_⟩
    intro p hp
    rcases mem_zipWith hp with ⟨p₁, p₂, h₁, h₂, rfl⟩
    refine ⟨by simp [(ht.2 _ h₁).1, (hu.2 _ h₂).1], ?_⟩
    intro r hr
    rcases mem_zipWith hr with ⟨r₁, r₂, hr₁, hr₂, rfl⟩
    simp [(ht.2 _ h₁).2 _ hr₁, (hu.2 _ h₂).2 _ hr₂]

theorem split_shape2 {m : List (List ℚ)} {b n k : ℕ}
    (h : (Tensor.t2 m).isShape [b, n] = true) (hk : k ≤ n) :
    (Tensor.t2 (m.map (List.take k))).isShape [b, k] = true ∧
      (Tensor.t2 (m.map (List.drop k))).isShape [b, n - k] = true := by
  rw [isShape_t2] at h
  constructor <;> rw [isShape_t2] <;> refine ⟨by simp [h.1], ?_⟩ <;>
    intro r hr <;> rcases List.mem_map.1 hr with ⟨v, hv, rfl⟩
  · simp [h.2 _ hv, Nat.min_eq_left hk]
  · simp [h.2 _ hv]

theorem split_shape3 {m : List (List (List ℚ))} {s b n k : ℕ}
    (h : (Tensor.t3 m).isShape [s, b, n] = true) (hk : k ≤ n) :
    (Tensor.t3 (m.map (·.map (List.take k)))).isShape [s, b, k] = true ∧
      (Tensor.t3 (m.map (·.map (List.drop k)))).isShape [s, b, n - k] = true := by
  rw [isShape_t3] at h
  constructor <;> rw [isShape_t3] <;> refine ⟨by simp [h.1], ?_⟩ <;>
    intro p hp <;> rcases List.mem_map.1 hp with ⟨p₀, hp₀, rfl⟩ <;>
    refine ⟨by simp [(h.2 _ hp₀).1], ?_⟩ <;>
    intro r hr <;> rcases List.mem_map.1 hr with ⟨v, hv, rfl⟩
  · simp [(h.2 _ hp₀).2 _ hv, Nat.min_eq_left hk]
  · simp [(h.2 _ hp₀).2 _ hv]

theorem zipWith_append_take_drop (k : ℕ) (m : List (List ℚ)) :
    List.zipWith (· ++ ·) (m.map (List.take k)) (m.map (List.drop k)) = m := by
  induction m with
  | nil => rfl
  | cons r rs ih => simp [ih]

theorem zipWith_append_take_drop3 (k : ℕ) (m : List (List (List ℚ))) :
    List.zipWith (List.zipWith (· ++ ·)) (m.map (·.map (List.take k)))
      (m.map (·.map (List.drop k))) = m := by
  induction m with
  | nil => rfl
  | cons p ps ih => simp [ih, zipWith_append_take_drop]

/-! ## Destructing successful constructions -/

theorem init_ok_destruct {mk : ℕ → ℕ → List (List ℚ) × List ℚ}
    {o a r ted : ℕ} {hiddens : List ℕ} {act : String} {ln : Bool}
    {enc : VAETaskEncoder}
    (h : VAETaskEncoder.init mk o a r ted hiddens act ln = .ok enc) :
    ∃ h0 rest ifc ofc, hiddens = h0 :: rest ∧
      build_sequential mk (o + a + r) [h0] act true true = .ok ifc ∧
      build_sequential mk h0 (rest ++ [ted * 2]) act true true = .ok ofc ∧
      enc = ⟨false, ted, ln, some ifc, ofc, none⟩ := by
  cases hiddens with
  | nil => exact absurd h (by simp [VAETaskEncoder.init])
  | cons h0 rest =>
      simp only [VAETaskEncoder.init, bind, Except.bind] at h
      cases hi : build_sequential mk (o + a + r) [h0] act true true with
      | error e => rw [hi] at h; exact absurd h (by simp)
      | ok ifc =>
          rw [hi] at h
          cases ho : build_sequential mk h0 (rest ++ [ted * 2]) act true true with
          | error e => rw [ho] at h; exact absurd h (by simp)
          | ok ofc =>
              rw [ho] at h
              simp only [Except.ok.injEq] at h
              exact ⟨h0, rest, ifc, ofc, rfl, hi, ho, h.symm⟩

theorem decoder_init_ok_destruct {mk : ℕ → ℕ → List (List ℚ) × List ℚ}
    {ted o a r : ℕ} {act : String} {dec : TaskDecoder}
    (h : TaskDecoder.init mk ted o a r act = .ok dec) :
    ∃ ds, build_sequential mk (ted + o + a) [o + r] act true false = .ok ds ∧
      dec = ⟨o, r, ds⟩ := by
  simp only [TaskDecoder.init, bind, Except.bind] at h
  cases hd : build_sequential mk (ted + o + a) [o + r] act true false with
  | error e => rw [hd] at h; exact absurd h (by simp)
  | ok ds =>
      rw [hd] at h
      simp only [Except.ok.injEq] at h
      exact ⟨ds, rfl, h.symm⟩

/-- Width of a stack whose hidden list ends in `k`: every application of the
stack returns a vector of width `k` (this covers the encoder's `output_fc`,
built over `hiddens[1:] + [task_embedding_dim * 2]`). -/
theorem applySeq_concat_length (tanhFn : ℚ → ℚ) (lnFn : ℕ → List ℚ → List ℚ)
    {mk : ℕ → ℕ → List (List ℚ) × List ℚ} (hmk : WFmk mk) (hln : WFln lnFn)
    {num_inputs k : ℕ} {l : List ℕ} {activation : String} {lnorm oa : Bool}
    {layers : List Layer}
    (hb : build_sequential mk num_inputs (l ++ [k]) activation lnorm oa
            = .ok layers)
    (x : List ℚ) : (applySeq tanhFn lnFn layers x).length = k := by
  cases l with
  | nil =>
      have := applySeq_build_sequential_length tanhFn lnFn hmk hln hb x
      simpa using this
  | cons c cs =>
      have := applySeq_build_sequential_length tanhFn lnFn hmk hln hb x
      simpa [List.getLastD_concat] using this

theorem shape2_struct {t : Tensor} {b n : ℕ} (h : t.isShape [b, n] = true) :
    ∃ m, t = Tensor.t2 m := by
  cases t <;> simp [Tensor.isShape] at h <;> exact ⟨_, rfl⟩

theorem shape3_struct {t : Tensor} {s b n : ℕ}
    (h : t.isShape [s, b, n] = true) : ∃ m, t = Tensor.t3 m := by
  cases t <;> simp [Tensor.isShape] at h <;> exact ⟨_, rfl⟩

/-- Computation of `preOutput` on a rank-2 concatenated input: the unsqueeze
and squeeze cancel (the RNN stage is skipped) and the two stacks are applied
row by row. -/
theorem preOutput_ok2 (tanhFn : ℚ → ℚ) (lnFn : ℕ → List ℚ → List ℚ)
    (enc : VAETaskEncoder) {ifc : List Layer}
    (hif : enc.input_fc = some ifc) (hrnn : enc.use_rnn = false)
    {o a r : Tensor} {u : List (List ℚ)} (hcat : tcat3 o a r = .ok (.t2 u)) :
    enc.preOutput tanhFn lnFn o a r
      = .ok (Tensor.t2 ((u.map (applySeq tanhFn lnFn ifc)).map
          (applySeq tanhFn lnFn enc.output_fc))) := by
  simp [VAETaskEncoder.preOutput, bind, Except.bind, hcat, hif, hrnn,
    Tensor.mapVec, Tensor.squeeze0]

/-- Computation of `preOutput` on a rank-3 concatenated input: no reshape
happens and the two stacks are applied to every feature vector. -/
theorem preOutput_ok3 (tanhFn : ℚ → ℚ) (lnFn : ℕ → List ℚ → List ℚ)
    (enc : VAETaskEncoder) {ifc : List Layer}
    (hif : enc.input_fc = some ifc) (hrnn : enc.use_rnn = false)
    {o a r : Tensor} {u : List (List (List ℚ))}
    (hcat : tcat3 o a r = .ok (.t3 u)) :
    enc.preOutput tanhFn lnFn o a r
      = .ok (Tensor.t3 ((u.map (·.map (applySeq tanhFn lnFn ifc))).map
          (·.map (applySeq tanhFn lnFn enc.output_fc)))) := by
  simp [VAETaskEncoder.preOutput, bind, Except.bind, hcat, hif, hrnn,
    Tensor.mapVec]

/-- Computation of `forward` once the pre-split output (rank 2), the
concatenation of the two slices and the reparameterised sample are known. -/
theorem forward_ok2 {tanhFn : ℚ → ℚ} {lnFn : ℕ → List ℚ → List ℚ}
    {expFn : ℚ → ℚ} {randnLike : Tensor → Tensor} {enc : VAETaskEncoder}
    {o a r : Tensor} {X : List (List ℚ)} {te z : Tensor}
    (hpre : enc.preOutput tanhFn lnFn o a r = .ok (.t2 X))
    (hte : tcat (.t2 (X.map (List.take enc.task_emb_dim)))
        (.t2 (X.map (List.drop enc.task_emb_dim))) = .ok te)
    (hz : VAETaskEncoder.reparameterise expFn randnLike
        (.t2 (X.map (List.take enc.task_emb_dim)))
        (.t2 (X.map (List.drop enc.task_emb_dim))) = some z) :
    enc.forward tanhFn lnFn expFn randnLike o a r
      = .ok (te, .t2 (X.map (List.take enc.task_emb_dim)),
             .t2 (X.map (List.drop enc.task_emb_dim)), z) := by
  simp [VAETaskEncoder.forward, bind, Except.bind, hpre, hte, hz]

/-- Computation of `forward` for a rank-3 pre-split output. -/
theorem forward_ok3 {tanhFn : ℚ → ℚ} {lnFn : ℕ → List ℚ → List ℚ}
    {expFn : ℚ → ℚ} {randnLike : Tensor → Tensor} {enc : VAETaskEncoder}
    {o a r : Tensor} {X : List (List (List ℚ))} {te z : Tensor}
    (hpre : enc.preOutput tanhFn lnFn o a r = .ok (.t3 X))
    (hte : tcat (.t3 (X.map (·.map (List.take enc.task_emb_dim))))
        (.t3 (X.map (·.map (List.drop enc.task_emb_dim)))) = .ok te)
    (hz : VAETaskEncoder.reparameterise expFn randnLike
        (.t3 (X.map (·.map (List.take enc.task_emb_dim))))
        (.t3 (X.map (·.map (List.drop enc.task_emb_dim)))) = some z) :
    enc.forward tanhFn lnFn expFn randnLike o a r
      = .ok (te, .t3 (X.map (·.map (List.take enc.task_emb_dim))),
             .t3 (X.map (·.map (List.drop enc.task_emb_dim))), z) := by
  simp [VAETaskEncoder.forward, bind, Except.bind, hpre, hte, hz]

/-- Shape-preserving success of `reparameterise` on same-shape inputs. -/
theorem reparameterise_shape (expFn : ℚ → ℚ) {randnLike : Tensor → Tensor}
    (hrnd : WFrandn randnLike) {mu lv : Tensor} {s : List ℕ}
    (hmu : mu.isShape s = true) (hlv : lv.isShape s = true) :
    ∃ z, VAETaskEncoder.reparameterise expFn randnLike mu lv = some z ∧
      z.isShape s = true := by
  have hstd : (lv.mapScalar (fun v => expFn ((1 : ℚ) / 2 * v))).isShape s = true :=
    mapScalar_shape hlv
  have heps := hrnd _ _ hstd
  obtain ⟨es, hes, hesS⟩ := zipWith_shape (f := (· * ·)) heps hstd
  obtain ⟨z, hzz, hzS⟩ := zipWith_shape (f := (· + ·)) hmu hesS
  refine ⟨z, ?_, hzS⟩
  simp only [VAETaskEncoder.reparameterise, hes, Option.bind_some]
  exact hzz

/-- Shape behaviour of the non-recurrent encoder forward pass on 2-D inputs. -/
theorem encoder_forward_shape2 {tanhFn : ℚ → ℚ} {lnFn : ℕ → List ℚ → List ℚ}
    {expFn : ℚ → ℚ} {randnLike : Tensor → Tensor}
    {mk : ℕ → ℕ → List (List ℚ) × List ℚ}
    (hmk : WFmk mk) (hln : WFln lnFn) (hrnd : WFrandn randnLike)
    {o a r ted : ℕ} {hiddens : List ℕ} {act : String} {lnflag : Bool}
    {enc : VAETaskEncoder}
    (henc : VAETaskEncoder.init mk o a r ted hiddens act lnflag = .ok enc)
    {B : ℕ} {obs act' rew : Tensor}
    (hobs : obs.isShape [B, o] = true) (hact : act'.isShape [B, a] = true)
    (hrew : rew.isShape [B, r] = true) :
    ∃ te mu lv z,
      enc.forward tanhFn lnFn expFn randnLike obs act' rew = .ok (te, mu, lv, z) ∧
      mu.isShape [B, ted] = true ∧ lv.isShape [B, ted] = true ∧
      te.isShape [B, 2 * ted] = true := by
  obtain ⟨h0, rest, ifc, ofc, hhid, hifc, hofc, hencEq⟩ := init_ok_destruct henc
  subst hencEq
  obtain ⟨u, hcat, hu⟩ := tcat3_shape2 hobs hact hrew
  obtain ⟨m, rfl⟩ := shape2_struct hu
  have hpre := preOutput_ok2 tanhFn lnFn
    ⟨false, ted, lnflag, some ifc, ofc, none⟩ rfl rfl hcat
  have hI : ∀ v : List ℚ, (applySeq tanhFn lnFn ifc v).length = h0 := by
    intro v
    simpa using applySeq_build_sequential_length tanhFn lnFn hmk hln hifc v
  have hO : ∀ v : List ℚ, (applySeq tanhFn lnFn ofc v).length = ted * 2 :=
    fun v => applySeq_concat_length tanhFn lnFn hmk hln hofc v
  have hX1 : (Tensor.t2 (m.map (applySeq tanhFn lnFn ifc))).isShape [B, h0] = true :=
    mapVec_shape2 hu hI
  have hX : (Tensor.t2 ((m.map (applySeq tanhFn lnFn ifc)).map
      (applySeq tanhFn lnFn ofc))).isShape [B, ted * 2] = true :=
    mapVec_shape2 hX1 hO
  set X := (m.map (applySeq tanhFn lnFn ifc)).map (applySeq tanhFn lnFn ofc) with hXdef
  have hsplit := split_shape2 hX (k := ted) (by omega)
  have hlvS : (Tensor.t2 (X.map (List.drop ted))).isShape [B, ted] = true := by
    have := hsplit.2
    have h2 : ted * 2 - ted = ted := by omega
    rwa [h2] at this
  obtain ⟨te, hte, hteS⟩ := tcat_shape2 hsplit.1 hlvS
  obtain ⟨z, hz, _⟩ := reparameterise_shape expFn hrnd hsplit.1 hlvS
  refine ⟨te, _, _, z, forward_ok2 hpre hte hz, hsplit.1, hlvS, ?_⟩
  have h2 : ted + ted = 2 * ted := by omega
  rwa [h2] at hteS

/-- Shape behaviour of the non-recurrent encoder forward pass on 3-D inputs. -/
theorem encoder_forward_shape3 {tanhFn : ℚ → ℚ} {lnFn : ℕ → List ℚ → List ℚ}
    {expFn : ℚ → ℚ} {randnLike : Tensor → Tensor}
    {mk : ℕ → ℕ → List (List ℚ) × List ℚ}
    (hmk : WFmk mk) (hln : WFln lnFn) (hrnd : WFrandn randnLike)
    {o a r ted : ℕ} {hiddens : List ℕ} {act : String} {lnflag : Bool}
    {enc : VAETaskEncoder}
    (henc : VAETaskEncoder.init mk o a r ted hiddens act lnflag = .ok enc)
    {S B : ℕ} {obs act' rew : Tensor}
    (hobs : obs.isShape [S, B, o] = true) (hact : act'.isShape [S, B, a] = true)
    (hrew : rew.isShape [S, B, r] = true) :
    ∃ te mu lv z,
      enc.forward tanhFn lnFn expFn randnLike obs act' rew = .ok (te, mu, lv, z) ∧
      mu.isShape [S, B, ted] = true ∧ lv.isShape [S, B, ted] = true ∧
      te.isShape [S, B, 2 * ted] = true := by
  obtain ⟨h0, rest, ifc, ofc, hhid, hifc, hofc, hencEq⟩ := init_ok_destruct henc
  subst hencEq
  obtain ⟨u, hcat, hu⟩ := tcat3_shape3 hobs hact hrew
  obtain ⟨m, rfl⟩ := shape3_struct hu
  have hpre := preOutput_ok3 tanhFn lnFn
    ⟨false, ted, lnflag, some ifc, ofc, none⟩ rfl rfl hcat
  have hI : ∀ v : List ℚ, (applySeq tanhFn lnFn ifc v).length = h0 := by
    intro v
    simpa using applySeq_build_sequential_length tanhFn lnFn hmk hln hifc v
  have hO : ∀ v : List ℚ, (applySeq tanhFn lnFn ofc v).length = ted * 2 :=
    fun v => applySeq_concat_length tanhFn lnFn hmk hln hofc v
  have hX1 : (Tensor.t3 (m.map (·.map (applySeq tanhFn lnFn ifc)))).isShape
      [S, B, h0] = true := mapVec_shape3 hu hI
  have hX : (Tensor.t3 ((m.map (·.map (applySeq tanhFn lnFn ifc))).map
      (·.map (applySeq tanhFn lnFn ofc)))).isShape [S, B, ted * 2] = true :=
    mapVec_shape3 hX1 hO
  set X := (m.map (·.map (applySeq tanhFn lnFn ifc))).map
    (·.map (applySeq tanhFn lnFn ofc)) with hXdef
  have hsplit := split_shape3 hX (k := ted) (by omega)
  have hlvS : (Tensor.t3 (X.map (·.map (List.drop ted)))).isShape [S, B, ted]
      = true := by
    have := hsplit.2
    have h2 : ted * 2 - ted = ted := by omega
    rwa [h2] at this
  obtain ⟨te, hte, hteS⟩ := tcat_shape3 hsplit.1 hlvS
  obtain ⟨z, hz, _⟩ := reparameterise_shape expFn hrnd hsplit.1 hlvS
  refine ⟨te, _, _, z, forward_ok3 hpre hte hz, hsplit.1, hlvS, ?_⟩
  have h2 : ted + ted = 2 * ted := by omega
  rwa [h2] at hteS

/-- Decoder forward on 2-D inputs: the raw stack output has width
`obs_dim + rew_dim` and is split at `obs_dim`; re-concatenating the two
returned slices recovers the raw output. -/
theorem decoder_forward_shape2 {tanhFn : ℚ → ℚ} {lnFn : ℕ → List ℚ → List ℚ}
    {mk : ℕ → ℕ → List (List ℚ) × List ℚ}
    (hmk : WFmk mk) (hln : WFln lnFn)
    {ted o a r : ℕ} {act : String} {dec : TaskDecoder}
    (hdec : TaskDecoder.init mk ted o a r act = .ok dec)
    {B : ℕ} {te obs act' : Tensor}
    (hte : te.isShape [B, ted] = true) (hobs : obs.isShape [B, o] = true)
    (hact : act'.isShape [B, a] = true) :
    ∃ raw op rp,
      dec.rawOutput tanhFn lnFn te obs act' = .ok raw ∧
      dec.forward tanhFn lnFn te obs act' = .ok (op, rp) ∧
      raw.isShape [B, o + r] = true ∧ op.isShape [B, o] = true ∧
      rp.isShape [B, r] = true ∧ tcat op rp = .ok raw := by
  obtain ⟨ds, hds, hdecEq⟩ := decoder_init_ok_destruct hdec
  subst hdecEq
  obtain ⟨u, hcat, hu⟩ := tcat3_shape2 hte hobs hact
  obtain ⟨m, rfl⟩ := shape2_struct hu
  have hW : ∀ v : List ℚ, (applySeq tanhFn lnFn ds v).length = o + r := by
    intro v
    simpa using applySeq_build_sequential_length tanhFn lnFn hmk hln hds v
  have hraw : TaskDecoder.rawOutput tanhFn lnFn ⟨o, r, ds⟩ te obs act'
      = .ok (.t2 (m.map (applySeq tanhFn lnFn ds))) := by
    simp [TaskDecoder.rawOutput, bind, Except.bind, hcat, Tensor.mapVec]
  have hX : (Tensor.t2 (m.map (applySeq tanhFn lnFn ds))).isShape [B, o + r]
      = true := mapVec_shape2 hu hW
  set X := m.map (applySeq tanhFn lnFn ds) with hXdef
  have hsplit := split_shape2 hX (k := o) (by omega)
  have hrpS : (Tensor.t2 (X.map (List.drop o))).isShape [B, r] = true := by
    have := hsplit.2
    have h2 : o + r - o = r := by omega
    rwa [h2] at this
  refine ⟨_, _, _, hraw, ?_, hX, hsplit.1, hrpS, ?_⟩
  · simp [TaskDecoder.forward, bind, Except.bind, hraw]
  · simp [tcat, zipWith_append_take_drop]

/-- Decoder forward on 3-D inputs. -/
theorem decoder_forward_shape3 {tanhFn : ℚ → ℚ} {lnFn : ℕ → List ℚ → List ℚ}
    {mk : ℕ → ℕ → List (List ℚ) × List ℚ}
    (hmk : WFmk mk) (hln : WFln lnFn)
    {ted o a r : ℕ} {act : String} {dec : TaskDecoder}
    (hdec : TaskDecoder.init mk ted o a r act = .ok dec)
    {S B : ℕ} {te obs act' : Tensor}
    (hte : te.isShape [S, B, ted] = true) (hobs : obs.isShape [S, B, o] = true)
    (hact : act'.isShape [S, B, a] = true) :
    ∃ raw op rp,
      dec.rawOutput tanhFn lnFn te obs act' = .ok raw ∧
      dec.forward tanhFn lnFn te obs act' = .ok (op, rp) ∧
      raw.isShape [S, B, o + r] = true ∧ op.isShape [S, B, o] = true ∧
      rp.isShape [S, B, r] = true ∧ tcat op rp = .ok raw := by
  obtain ⟨ds, hds, hdecEq⟩ := decoder_init_ok_destruct hdec
  subst hdecEq
  obtain ⟨u, hcat, hu⟩ := tcat3_shape3 hte hobs hact
  obtain ⟨m, rfl⟩ := shape3_struct hu
  have hW : ∀ v : List ℚ, (applySeq tanhFn lnFn ds v).length = o + r := by
    intro v
    simpa using applySeq_build_sequential_length tanhFn lnFn hmk hln hds v
  have hraw : TaskDecoder.rawOutput tanhFn lnFn ⟨o, r, ds⟩ te obs act'
      = .ok (.t3 (m.map (·.map (applySeq tanhFn lnFn ds)))) := by
    simp [TaskDecoder.rawOutput, bind, Except.bind, hcat, Tensor.mapVec]
  have hX : (Tensor.t3 (m.map (·.map (applySeq tanhFn lnFn ds)))).isShape
      [S, B, o + r] = true := mapVec_shape3 hu hW
  set X := m.map (·.map (applySeq tanhFn lnFn ds)) with hXdef
  have hsplit := split_shape3 hX (k := o) (by omega)
  have hrpS : (Tensor.t3 (X.map (·.map (List.drop o)))).isShape [S, B, r]
      = true := by
    have := hsplit.2
    have h2 : o + r - o = r := by omega
    rwa [h2] at this
  refine ⟨_, _, _, hraw, ?_, hX, hsplit.1, hrpS, ?_⟩
  · simp [TaskDecoder.forward, bind, Except.bind, hraw]
  · have hlen : (List.zip (X.map (·.map (List.take o)))
        (X.map (·.map (List.drop o)))).all
        (fun p => p.1.length == p.2.length) = true := by
      rw [List.all_eq_true]
      intro p hp
      rw [List.zip_map'] at hp
      rcases List.mem_map.1 hp with ⟨q, hq, hq1⟩
      rw [← hq1]
      simp
    simp [tcat, hlen, zipWith_append_take_drop3]

/-! ## Entry-level lemmas (elementwise semantics) -/

theorem getElem?_zipWith_some {α β γ : Type _} {f : α → β → γ} {a : List α}
    {b : List β} {i : ℕ} {x : α} {y : β}
    (hx : a[i]? = some x) (hy : b[i]? = some y) :
    (List.zipWith f a b)[i]? = some (f x y) := by
  rw [List.getElem?_zipWith', hx, hy]
  rfl

theorem zipWith_entry {f : ℚ → ℚ → ℚ} {t u v : Tensor}
    (h : Tensor.zipWith f t u = some v) {ix : List ℕ} {x y : ℚ}
    (hx : t.entry ix = some x) (hy : u.entry ix = some y) :
    v.entry ix = some (f x y) := by
  cases t <;> cases u <;> simp [Tensor.zipWith] at h <;> subst h
  case t1.t1 a b =>
    rcases ix with _ | ⟨i, _ | ⟨j, ix'⟩⟩ <;> simp [Tensor.entry] at hx hy ⊢
    exact getElem?_zipWith_some hx hy
  case t2.t2 a b =>
    rcases ix with _ | ⟨i, _ | ⟨j, _ | ⟨k, ix'⟩⟩⟩ <;>
      simp [Tensor.entry, Option.bind_eq_some] at hx hy ⊢
    rcases hx with ⟨ra, hra, hxa⟩
    rcases hy with ⟨rb, hrb, hyb⟩
    exact ⟨List.zipWith f ra rb, getElem?_zipWith_some hra hrb,
      getElem?_zipWith_some hxa hyb⟩
  case t3.t3 a b =>
    rcases ix with _ | ⟨i, _ | ⟨j, _ | ⟨k, _ | ⟨l, ix'⟩⟩⟩⟩ <;>
      simp [Tensor.entry, Option.bind_eq_some] at hx hy ⊢
    rcases hx with ⟨pa, hpa, ra, hra, hxa⟩
    rcases hy with ⟨pb, hpb, rb, hrb, hyb⟩
    exact ⟨List.zipWith (List.zipWith f) pa pb,
      getElem?_zipWith_some hpa hpb,
      List.zipWith f ra rb, getElem?_zipWith_some hra hrb,
      getElem?_zipWith_some hxa hyb⟩

theorem mapScalar_entry {g : ℚ → ℚ} {t : Tensor} {ix : List ℕ} {x : ℚ}
    (hx : t.entry ix = some x) : (t.mapScalar g).entry ix = some (g x) := by
  cases t
  case t1 a =>
    rcases ix with _ | ⟨i, _ | ⟨j, ix'⟩⟩ <;> simp [Tensor.entry] at hx ⊢
    simp [Tensor.mapScalar, Tensor.entry, hx]
  case t2 a =>
    rcases ix with _ | ⟨i, _ | ⟨j, _ | ⟨k, ix'⟩⟩⟩ <;>
      simp [Tensor.entry, Tensor.mapScalar, Option.bind_eq_some] at hx ⊢
    rcases hx with ⟨ra, hra, hxa⟩
    exact ⟨ra, hra, x, hxa, rfl⟩
  case t3 a =>
    rcases ix with _ | ⟨i, _ | ⟨j, _ | ⟨k, _ | ⟨l, ix'⟩⟩⟩⟩ <;>
      simp [Tensor.entry, Tensor.mapScalar, Option.bind_eq_some] at hx ⊢
    rcases hx with ⟨pa, hpa, ra, hra, hxa⟩
    exact ⟨pa, hpa, ra, hra, x, hxa, rfl⟩

/-! ## Rank lemmas -/

theorem mapScalar_rank (g : ℚ → ℚ) (t : Tensor) :
    (t.mapScalar g).rank = t.rank := by
  cases t <;> rfl

theorem zipWith_some_of_rank {f : ℚ → ℚ → ℚ} {t u : Tensor}
    (h : t.rank = u.rank) :
    ∃ v, Tensor.zipWith f t u = some v ∧ v.rank = t.rank := by
  cases t <;> cases u <;> simp [Tensor.rank] at h <;>
    exact ⟨_, rfl, rfl⟩

/-- Success of `reparameterise` needs only that the fresh draw has the rank
of its argument (true of `torch.randn_like`). -/
theorem reparameterise_some_of_rank (expFn : ℚ → ℚ)
    {randnLike : Tensor → Tensor}
    (hrnd : ∀ t, (randnLike t).rank = t.rank) (mu lv : Tensor)
    (h : mu.rank = lv.rank) :
    ∃ z, VAETaskEncoder.reparameterise expFn randnLike mu lv = some z := by
  have h1 : (randnLike (lv.mapScalar (fun v => expFn ((1 : ℚ) / 2 * v)))).rank
      = (lv.mapScalar (fun v => expFn ((1 : ℚ) / 2 * v))).rank := hrnd _
  obtain ⟨es, hes, hesR⟩ := zipWith_some_of_rank (f := (· * ·)) h1
  have h2 : mu.rank = es.rank := by
    rw [hesR, h1, mapScalar_rank, h]
  obtain ⟨z, hz, _⟩ := zipWith_some_of_rank (f := (· + ·)) h2
  refine ⟨z, ?_⟩
  simp only [VAETaskEncoder.reparameterise, hes, Option.bind_some]
  exact hz

/-! ## Structure of the built stacks (layer-norm placement) -/

/-- Check that every linear layer in a stack is immediately followed by a
`LayerNorm` module. -/
def linearsFollowedByLN : List Layer → Bool
  | [] => true
  | Layer.linear _ _ :: Layer.layerNorm _ :: rest => linearsFollowedByLN rest
  | Layer.linear _ _ :: _ => false
  | _ :: rest => linearsFollowedByLN rest

theorem linearsFollowedByLN_buildLoop
    (mk : ℕ → ℕ → List (List ℚ) × List ℚ) {nonlin : Layer}
    (hnl : nonlin = Layer.relu ∨ nonlin = Layer.tanh) :
    ∀ (rest : List ℕ) (prev : ℕ) (tail : List Layer),
      linearsFollowedByLN (buildLoop mk nonlin true prev rest ++ tail)
        = linearsFollowedByLN tail := by
  intro rest
  induction rest with
  | nil => intro prev tail; simp [buildLoop]
  | cons h rs ih =>
      intro prev tail
      rcases hnl with hnl | hnl <;> subst hnl <;>
        simp [buildLoop, linearsFollowedByLN, List.append_assoc, ih]

theorem linearsFollowedByLN_buildLoop_nil
    (mk : ℕ → ℕ → List (List ℚ) × List ℚ) {nonlin : Layer}
    (hnl : nonlin = Layer.relu ∨ nonlin = Layer.tanh)
    (rest : List ℕ) (prev : ℕ) :
    linearsFollowedByLN (buildLoop mk nonlin true prev rest) = true := by
  have := linearsFollowedByLN_buildLoop mk hnl rest prev []
  simpa [linearsFollowedByLN] using this

/-- Under the default `layer_norm=True` that all three call sites use, every
linear layer in the produced stack is immediately followed by a `LayerNorm`. -/
theorem build_sequential_linears_followed
    {mk : ℕ → ℕ → List (List ℚ) × List ℚ} {n : ℕ} {hiddens : List ℕ}
    {act : String} {oa : Bool} {layers : List Layer}
    (hb : build_sequential mk n hiddens act true oa = .ok layers) :
    linearsFollowedByLN layers = true := by
  by_cases hr : act = "relu"
  case pos =>
    subst hr
    cases hiddens with
    | nil => exact absurd hb (by simp [build_sequential, bind, Except.bind])
    | cons h0 rest =>
        simp only [build_sequential, bind, Except.bind] at hb
        cases hb
        cases oa <;>
          simp [linearsFollowedByLN, linearsFollowedByLN_buildLoop mk (Or.inl rfl),
            linearsFollowedByLN_buildLoop_nil mk (Or.inl rfl)]
  case neg =>
    by_cases ht : act = "tanh"
    case pos =>
      subst ht
      cases hiddens with
      | nil => exact absurd hb (by simp [build_sequential, bind, Except.bind])
      | cons h0 rest =>
          simp only [build_sequential, bind, Except.bind] at hb
          cases hb
          cases oa <;>
            simp [linearsFollowedByLN, linearsFollowedByLN_buildLoop mk (Or.inr rfl),
              linearsFollowedByLN_buildLoop_nil mk (Or.inr rfl)]
    case neg =>
      exfalso
      simp only [build_sequential, bind, Except.bind] at hb
      exact Except.noConfusion hb

/-- On a singleton hidden list with `output_activation=False` (the decoder's
call), the stack is exactly one initialised linear layer followed by one
`LayerNorm` — so the decoder's raw output is the layer-normalised linear
output. -/
theorem build_sequential_singleton
    {mk : ℕ → ℕ → List (List ℚ) × List ℚ} {n k : ℕ}
    {act : String} {layers : List Layer}
    (hb : build_sequential mk n [k] act true false = .ok layers) :
    layers = [Layer.linear (mk n k).1 (mk n k).2, Layer.layerNorm k] := by
  by_cases hr : act = "relu"
  case pos =>
    subst hr
    simp only [build_sequential, bind, Except.bind] at hb
    cases hb
    simp [buildLoop]
  case neg =>
    by_cases ht : act = "tanh"
    case pos =>
      subst ht
      simp only [build_sequential, bind, Except.bind] at hb
      cases hb
      simp [buildLoop]
    case neg =>
      exfalso
      simp only [build_sequential, bind, Except.bind] at hb
      exact Except.noConfusion hb

theorem vae_init_ok_destruct {mk : ℕ → ℕ → List (List ℚ) × List ℚ}
    {ted o a r n : ℕ} {hiddens : List ℕ} {act : String} {ln : Bool}
    {v : VAE}
    (h : VAE.init mk ted o a r n hiddens act ln = .ok v) :
    VAETaskEncoder.init mk o a r ted hiddens act ln = .ok v.encoder ∧
      TaskDecoder.init mk ted o a n act = .ok v.decoder := by
  simp only [VAE.init, bind, Except.bind] at h
  cases he : VAETaskEncoder.init mk o a r ted hiddens act ln with
  | error e => rw [he] at h; exact absurd h (by simp)
  | ok enc =>
      rw [he] at h
      cases hd : TaskDecoder.init mk ted o a n act with
      | error e => rw [hd] at h; exact absurd h (by simp)
      | ok dec =>
          rw [hd] at h
          simp only [Except.ok.injEq] at h
          subst h
          exact ⟨rfl, rfl⟩

/-! ## Activation validation -/

theorem build_sequential_unknown_activation
    (mk : ℕ → ℕ → List (List ℚ) × List ℚ) (n : ℕ) (hiddens : List ℕ)
    (lnorm oa : Bool) {s : String} (h1 : s ≠ "relu") (h2 : s ≠ "tanh") :
    build_sequential mk n hiddens s lnorm oa
      = .error ("ValueError: Unknown activation option " ++ s ++ "!") := by
  simp only [build_sequential, bind, Except.bind]

theorem encoder_init_unknown_activation
    (mk : ℕ → ℕ → List (List ℚ) × List ℚ) (o a r ted h0 : ℕ)
    (rest : List ℕ) (ln : Bool) {s : String}
    (h1 : s ≠ "relu") (h2 : s ≠ "tanh") :
    VAETaskEncoder.init mk o a r ted (h0 :: rest) s ln
      = .error ("ValueError: Unknown activation option " ++ s ++ "!") := by
  simp only [VAETaskEncoder.init, bind, Except.bind]
  rw [build_sequential_unknown_activation mk _ _ _ _ h1 h2]

theorem decoder_init_unknown_activation
    (mk : ℕ → ℕ → List (List ℚ) × List ℚ) (ted o a r : ℕ) {s : String}
    (h1 : s ≠ "relu") (h2 : s ≠ "tanh") :
    TaskDecoder.init mk ted o a r s
      = .error ("ValueError: Unknown activation option " ++ s ++ "!") := by
  simp only [TaskDecoder.init, bind, Except.bind]
  rw [build_sequential_unknown_activation mk _ _ _ _ h1 h2]

theorem build_sequential_known_activation_no_valueError
    (mk : ℕ → ℕ → List (List ℚ) × List ℚ) (n : ℕ) (hiddens : List ℕ)
    (lnorm oa : Bool) {s : String} (h : s = "relu" ∨ s = "tanh") :
    build_sequential mk n hiddens s lnorm oa
      ≠ .error ("ValueError: Unknown activation option " ++ s ++ "!") := by
  rcases h with rfl | rfl <;> cases hiddens <;>
    simp [build_sequential, bind, Except.bind]

/-! ## Claims -/

/-- C1: for every pair of tensors `mean` and `log_variance` of identical
shape, `VAETaskEncoder.reparameterise` returns
`mean + eps * exp(0.5 * log_variance)` elementwise, where `eps` is the fresh
standard-normal draw of the same shape made during the call (modelled as the
result of the input function `randnLike` on the computed `std` tensor); the
operation keeps no internal state (it is a pure function of its inputs and
the draw). -/
theorem claim_C1_reparameterise (expFn : ℚ → ℚ) (randnLike : Tensor → Tensor)
    (hrnd : WFrandn randnLike) {mu lv : Tensor} {s : List ℕ}
    (hmu : mu.isShape s = true) (hlv : lv.isShape s = true) :
    ∃ sample,
      VAETaskEncoder.reparameterise expFn randnLike mu lv = some sample ∧
      sample.isShape s = true ∧
      ∀ (ix : List ℕ) (m l e : ℚ), mu.entry ix = some m →
        lv.entry ix = some l →
        (randnLike (lv.mapScalar (fun v => expFn ((1 : ℚ) / 2 * v)))).entry ix
          = some e →
        sample.entry ix = some (m + e * expFn ((1 : ℚ) / 2 * l)) := by
  have hstd : (lv.mapScalar (fun v => expFn ((1 : ℚ) / 2 * v))).isShape s = true :=
    mapScalar_shape hlv
  have heps := hrnd _ _ hstd
  obtain ⟨es, hes, hesS⟩ := zipWith_shape (f := (· * ·)) heps hstd
  obtain ⟨sample, hsm, hsmS⟩ := zipWith_shape (f := (· + ·)) hmu hesS
  refine ⟨sample, ?_, hsmS, ?_⟩
  · simp only [VAETaskEncoder.reparameterise, hes, Option.bind_some]
    exact hsm
  · intro ix m l e hm hl he
    have hstdE : (lv.mapScalar (fun v => expFn ((1 : ℚ) / 2 * v))).entry ix
        = some (expFn ((1 : ℚ) / 2 * l)) := mapScalar_entry hl
    have hesE : es.entry ix = some (e * expFn ((1 : ℚ) / 2 * l)) :=
      zipWith_entry hes he hstdE
    exact zipWith_entry hsm hm hesE

/-- Witness for C1 at concrete inputs (`expFn = id`, `randnLike = id`,
rank-1 tensors of width 2). -/
theorem claim_C1_reparameterise_witness :
    (Tensor.t1 [1, 2]).isShape [2] = true ∧
    (Tensor.t1 [0, 0]).isShape [2] = true ∧
    ∃ sample,
      VAETaskEncoder.reparameterise id id (.t1 [1, 2]) (.t1 [0, 0])
        = some sample ∧
      sample.isShape [2] = true ∧
      ∀ (ix : List ℕ) (m l e : ℚ), (Tensor.t1 [1, 2]).entry ix = some m →
        (Tensor.t1 [0, 0]).entry ix = some l →
        (id ((Tensor.t1 [0, 0]).mapScalar
            (fun v => id ((1 : ℚ) / 2 * v)))).entry ix = some e →
        sample.entry ix = some (m + e * id ((1 : ℚ) / 2 * l)) :=
  ⟨by decide, by decide,
    claim_C1_reparameterise id id id_randn_wf (by decide) (by decide)⟩

/-- C9: every encoder actually constructed by `VAETaskEncoder.__init__`
(which hardcodes `use_rnn = False` and therefore never assigns
`rnn_hidden_dim`) fails with an `AttributeError` when `init_hidden` is
called, rather than returning a hidden-state tensor. -/
theorem claim_C9_init_hidden_fails {mk : ℕ → ℕ → List (List ℚ) × List ℚ}
    {o a r ted : ℕ} {hiddens : List ℕ} {act : String} {ln : Bool}
    {enc : VAETaskEncoder}
    (henc : VAETaskEncoder.init mk o a r ted hiddens act ln = .ok enc) :
    ∀ batch_size : ℕ, enc.init_hidden batch_size =
      .error
        "AttributeError: 'VAETaskEncoder' object has no attribute 'rnn_hidden_dim'" := by
  obtain ⟨h0, rest, ifc, ofc, hhid, hifc, hofc, hencEq⟩ := init_ok_destruct henc
  subst hencEq
  intro batch_size
  rfl

/-- Witness for C9 at a concrete construction. -/
theorem claim_C9_init_hidden_fails_witness :
    (∃ enc, VAETaskEncoder.init zeroMk 1 1 1 1 [1] "relu" true
        = Except.ok enc ∧
      enc.init_hidden 1 =
        .error
          "AttributeError: 'VAETaskEncoder' object has no attribute 'rnn_hidden_dim'") := by
  have h : VAETaskEncoder.init zeroMk 1 1 1 1 [1] "relu" true
      = Except.ok ⟨false, 1, true,
        some [Layer.linear [[0, 0, 0]] [0], Layer.layerNorm 1, Layer.relu],
        [Layer.linear [[0], [0]] [0, 0], Layer.layerNorm 2, Layer.relu], none⟩ := by
    rfl
  exact ⟨_, h, claim_C9_init_hidden_fails h 1⟩

/-- C5 counterexample: `VAE.__init__` passes `n_agents` — not `rew_dim` — as
the decoder's reward width.  With `rew_dim = 1` and `n_agents = 2` the
construction succeeds and the decoder's reward output width is 2, not the
encoder's `rew_dim` 1. -/
theorem claim_C5_counterexample :
    ∃ v, VAE.init zeroMk 1 1 1 1 2 [1] "relu" true = Except.ok v ∧
      v.decoder.rew_dim = 2 ∧ v.decoder.rew_dim ≠ 1 := by
  refine ⟨_, rfl, rfl, by decide⟩

/-- C5 (amended): the contained encoder and decoder are constructed together
and share `task_emb_dim`, `obs_dim`, `act_dim` and `activation`, but the
decoder's reward output width is the `n_agents` argument, not the `rew_dim`
that parameterises the encoder; the two agree only when `n_agents = rew_dim`. -/
theorem claim_C5_amended_vae_wiring {mk : ℕ → ℕ → List (List ℚ) × List ℚ}
    {ted o a r n : ℕ} {hiddens : List ℕ} {act : String} {ln : Bool} {v : VAE}
    (h : VAE.init mk ted o a r n hiddens act ln = .ok v) :
    VAETaskEncoder.init mk o a r ted hiddens act ln = .ok v.encoder ∧
    TaskDecoder.init mk ted o a n act = .ok v.decoder ∧
    v.decoder.rew_dim = n ∧ v.decoder.obs_dim = o := by
  obtain ⟨he, hd⟩ := vae_init_ok_destruct h
  obtain ⟨ds, hds, hdecEq⟩ := decoder_init_ok_destruct hd
  exact ⟨he, hd, by rw [hdecEq], by rw [hdecEq]⟩

/-- Witness for C5 (amended) at a concrete construction. -/
theorem claim_C5_amended_vae_wiring_witness :
    ∃ v, VAE.init zeroMk 1 1 1 1 2 [1] "relu" true = Except.ok v ∧
      (VAETaskEncoder.init zeroMk 1 1 1 1 [1] "relu" true = Except.ok v.encoder ∧
       TaskDecoder.init zeroMk 1 1 1 2 "relu" = Except.ok v.decoder ∧
       v.decoder.rew_dim = 2 ∧ v.decoder.obs_dim = 1) := by
  have h : VAE.init zeroMk 1 1 1 1 2 [1] "relu" true
      = Except.ok
        ⟨⟨false, 1, true,
          some [Layer.linear [[0, 0, 0]] [0], Layer.layerNorm 1, Layer.relu],
          [Layer.linear [[0], [0]] [0, 0], Layer.layerNorm 2, Layer.relu], none⟩,
         ⟨1, 2, [Layer.linear [[0, 0, 0], [0, 0, 0], [0, 0, 0]] [0, 0, 0],
           Layer.layerNorm 3]⟩⟩ := by
    rfl
  exact ⟨_, h, claim_C5_amended_vae_wiring h⟩

/-- C6 counterexample: constructing a `TaskEncoder` or `TaskDecoder` with
`obs_dim = 0` (a non-positive declared dimension) succeeds — no
`DimensionConfigurationError` (or any error) is raised, contradicting the
claim that non-positive dimensions are rejected at construction. -/
theorem claim_C6_counterexample :
    (∃ enc, VAETaskEncoder.init zeroMk 0 1 1 1 [1] "relu" true
        = Except.ok enc) ∧
    (∃ dec, TaskDecoder.init zeroMk 1 0 1 1 "relu" = Except.ok dec) := by
  exact ⟨⟨_, rfl⟩, ⟨_, rfl⟩⟩

/-- C6 (amended): constructing a `TaskEncoder` with `hiddens = []` does fail
at construction — the Python code evaluates `hiddens[0]` (an `IndexError`),
and `build_sequential` itself asserts `len(hiddens) > 0` (an
`AssertionError`); these play the role of the spec's
`DimensionConfigurationError`.  But no declared dimension is validated:
`obs_dim = 0` constructs successfully for both modules, and `TaskDecoder`
takes no `hiddens` argument at all. -/
theorem claim_C6_amended_degenerate_rejection :
    (∀ (mk : ℕ → ℕ → List (List ℚ) × List ℚ) (o a r ted : ℕ) (act : String)
        (ln : Bool),
      VAETaskEncoder.init mk o a r ted [] act ln
        = .error "IndexError: list index out of range") ∧
    (∀ (mk : ℕ → ℕ → List (List ℚ) × List ℚ) (n : ℕ) (act : String)
        (ln oa : Bool), (act = "relu" ∨ act = "tanh") →
      build_sequential mk n [] act ln oa
        = .error "AssertionError: len(hiddens) > 0") ∧
    (∃ enc, VAETaskEncoder.init zeroMk 0 1 1 1 [1] "relu" true
        = Except.ok enc) ∧
    (∃ dec, TaskDecoder.init zeroMk 1 0 1 1 "relu" = Except.ok dec) := by
  refine ⟨fun mk o a r ted act ln => rfl, ?_, ⟨_, rfl⟩, ⟨_, rfl⟩⟩
  intro mk n act ln oa h
  rcases h with rfl | rfl <;> rfl

/-- Witness for C6 (amended), discharging the activation hypothesis at
`"relu"`. -/
theorem claim_C6_amended_degenerate_rejection_witness :
    VAETaskEncoder.init zeroMk 2 3 4 5 [] "tanh" false
      = .error "IndexError: list index out of range" ∧
    build_sequential zeroMk 7 [] "relu" false true
      = .error "AssertionError: len(hiddens) > 0" :=
  ⟨claim_C6_amended_degenerate_rejection.1 zeroMk 2 3 4 5 "tanh" false,
   claim_C6_amended_degenerate_rejection.2.1 zeroMk 7 "relu" false true
     (Or.inl rfl)⟩

/-- C7: for every activation string outside `{"relu", "tanh"}` (e.g.
`"gelu"`), `build_sequential` — and hence construction of a `TaskEncoder`
(with non-empty `hiddens`) or a `TaskDecoder` — fails with the
`ValueError: Unknown activation option ...!` that models the spec's
`UnsupportedActivation`; for `"relu"`/`"tanh"` that error is never
produced. -/
theorem claim_C7_activation_validation :
    (∀ (mk : ℕ → ℕ → List (List ℚ) × List ℚ) (n : ℕ) (hiddens : List ℕ)
        (ln oa : Bool) (s : String), s ≠ "relu" → s ≠ "tanh" →
      build_sequential mk n hiddens s ln oa
        = .error ("ValueError: Unknown activation option " ++ s ++ "!")) ∧
    (∀ (mk : ℕ → ℕ → List (List ℚ) × List ℚ) (o a r ted h0 : ℕ)
        (rest : List ℕ) (ln : Bool) (s : String), s ≠ "relu" → s ≠ "tanh" →
      VAETaskEncoder.init mk o a r ted (h0 :: rest) s ln
        = .error ("ValueError: Unknown activation option " ++ s ++ "!")) ∧
    (∀ (mk : ℕ → ℕ → List (List ℚ) × List ℚ) (ted o a r : ℕ) (s : String),
        s ≠ "relu" → s ≠ "tanh" →
      TaskDecoder.init mk ted o a r s
        = .error ("ValueError: Unknown activation option " ++ s ++ "!")) ∧
    (∀ (mk : ℕ → ℕ → List (List ℚ) × List ℚ) (n : ℕ) (hiddens : List ℕ)
        (ln oa : Bool) (s : String), (s = "relu" ∨ s = "tanh") →
      build_sequential mk n hiddens s ln oa
        ≠ .error ("ValueError: Unknown activation option " ++ s ++ "!")) := by
  refine ⟨?_, ?_, ?_, ?_⟩
  · intro mk n hiddens ln oa s h1 h2
    exact build_sequential_unknown_activation mk n hiddens ln oa h1 h2
  · intro mk o a r ted h0 rest ln s h1 h2
    exact encoder_init_unknown_activation mk o a r ted h0 rest ln h1 h2
  · intro mk ted o a r s h1 h2
    exact decoder_init_unknown_activation mk ted o a r h1 h2
  · intro mk n hiddens ln oa s h
    exact build_sequential_known_activation_no_valueError mk n hiddens ln oa h

/-- Witness for C7 at `"gelu"` (rejected) and `"relu"` (accepted). -/
theorem claim_C7_activation_validation_witness :
    build_sequential zeroMk 3 [4] "gelu" true false
      = .error "ValueError: Unknown activation option gelu!" ∧
    VAETaskEncoder.init zeroMk 1 1 1 1 [1] "gelu" true
      = .error "ValueError: Unknown activation option gelu!" ∧
    TaskDecoder.init zeroMk 1 1 1 1 "gelu"
      = .error "ValueError: Unknown activation option gelu!" ∧
    build_sequential zeroMk 3 [4] "relu" true false
      ≠ .error "ValueError: Unknown activation option relu!" := by
  refine ⟨?_, ?_, ?_, ?_⟩
  · exact claim_C7_activation_validation.1 zeroMk 3 [4] true false "gelu"
      (by decide) (by decide)
  · exact claim_C7_activation_validation.2.1 zeroMk 1 1 1 1 1 [] true "gelu"
      (by decide) (by decide)
  · exact claim_C7_activation_validation.2.2.1 zeroMk 1 1 1 1 "gelu"
      (by decide) (by decide)
  · exact claim_C7_activation_validation.2.2.2 zeroMk 3 [4] true false "relu"
      (Or.inl rfl)

/-- C2: for every valid configuration (positive dimensions, non-empty
`hiddens`) and every input triple with matching leading dimensions — whether
batched 2-D `[batch, features]` or sequenced 3-D `[seq, batch, features]` —
`VAETaskEncoder.forward` succeeds and returns `mean` and `log_variance` of
final-axis width `task_embedding_dim` and `task_embedding` of width
`2 * task_embedding_dim`, preserving exactly the leading dimensions of the
input; in particular a 2-D input yields 2-D outputs (no sequence axis is
introduced). -/
theorem claim_C2_forward_shape_invariance
    (tanhFn : ℚ → ℚ) (lnFn : ℕ → List ℚ → List ℚ) (expFn : ℚ → ℚ)
    (randnLike : Tensor → Tensor) {mk : ℕ → ℕ → List (List ℚ) × List ℚ}
    (hmk : WFmk mk) (hln : WFln lnFn) (hrnd : WFrandn randnLike)
    {o a r ted : ℕ} {hiddens : List ℕ} {act : String} {lnflag : Bool}
    {enc : VAETaskEncoder}
    (ho : 0 < o) (ha : 0 < a) (hr : 0 < r) (hted : 0 < ted)
    (hh : hiddens ≠ [])
    (henc : VAETaskEncoder.init mk o a r ted hiddens act lnflag = .ok enc) :
    (∀ (B : ℕ) (obs act' rew : Tensor),
      obs.isShape [B, o] = true → act'.isShape [B, a] = true →
      rew.isShape [B, r] = true →
      ∃ te mu lv z,
        enc.forward tanhFn lnFn expFn randnLike obs act' rew
          = .ok (te, mu, lv, z) ∧
        mu.isShape [B, ted] = true ∧ lv.isShape [B, ted] = true ∧
        te.isShape [B, 2 * ted] = true) ∧
    (∀ (S B : ℕ) (obs act' rew : Tensor),
      obs.isShape [S, B, o] = true → act'.isShape [S, B, a] = true →
      rew.isShape [S, B, r] = true →
      ∃ te mu lv z,
        enc.forward tanhFn lnFn expFn randnLike obs act' rew
          = .ok (te, mu, lv, z) ∧
        mu.isShape [S, B, ted] = true ∧ lv.isShape [S, B, ted] = true ∧
        te.isShape [S, B, 2 * ted] = true) := by
  constructor
  · intro B obs act' rew hobs hact hrew
    exact encoder_forward_shape2 hmk hln hrnd henc hobs hact hrew
  · intro S B obs act' rew hobs hact hrew
    exact encoder_forward_shape3 hmk hln hrnd henc hobs hact hrew

/-- Witness for C2: a concrete encoder and a concrete 2-batch of inputs. -/
theorem claim_C2_forward_shape_invariance_witness :
    ∃ te mu lv z,
      VAETaskEncoder.forward id idLn id id
        ⟨false, 1, true,
          some [Layer.linear [[0, 0, 0]] [0], Layer.layerNorm 1, Layer.relu],
          [Layer.linear [[0], [0]] [0, 0], Layer.layerNorm 2, Layer.relu], none⟩
        (.t2 [[1], [2]]) (.t2 [[3], [4]]) (.t2 [[5], [6]])
        = .ok (te, mu, lv, z) ∧
      mu.isShape [2, 1] = true ∧ lv.isShape [2, 1] = true ∧
      te.isShape [2, 2 * 1] = true := by
  have h : VAETaskEncoder.init zeroMk 1 1 1 1 [1] "relu" true
      = Except.ok ⟨false, 1, true,
        some [Layer.linear [[0, 0, 0]] [0], Layer.layerNorm 1, Layer.relu],
        [Layer.linear [[0], [0]] [0, 0], Layer.layerNorm 2, Layer.relu], none⟩ := by
    rfl
  exact (claim_C2_forward_shape_invariance id idLn id id zeroMk_wf idLn_wf
    id_randn_wf (by decide) (by decide) (by decide) (by decide) (by decide)
    h).1 2 (.t2 [[1], [2]]) (.t2 [[3], [4]]) (.t2 [[5], [6]])
    (by decide) (by decide) (by decide)

/-- C3: for every valid 2-D or 3-D input triple, `TaskDecoder.forward`
returns `predicted_observation` = the first `obs_dim` features and
`predicted_reward` = the remaining `rew_dim` features of the stack's raw
output (re-concatenating them recovers the raw output), so their final-axis
widths are `obs_dim` and `rew_dim` and sum to the raw output width
`obs_dim + rew_dim`. -/
theorem claim_C3_decoder_split
    (tanhFn : ℚ → ℚ) (lnFn : ℕ → List ℚ → List ℚ)
    {mk : ℕ → ℕ → List (List ℚ) × List ℚ} (hmk : WFmk mk) (hln : WFln lnFn)
    {ted o a r : ℕ} {act : String} {dec : TaskDecoder}
    (hdec : TaskDecoder.init mk ted o a r act = .ok dec) :
    (∀ (B : ℕ) (te obs act' : Tensor),
      te.isShape [B, ted] = true → obs.isShape [B, o] = true →
      act'.isShape [B, a] = true →
      ∃ raw op rp,
        dec.rawOutput tanhFn lnFn te obs act' = .ok raw ∧
        dec.forward tanhFn lnFn te obs act' = .ok (op, rp) ∧
        raw.isShape [B, o + r] = true ∧ op.isShape [B, o] = true ∧
        rp.isShape [B, r] = true ∧ tcat op rp = .ok raw) ∧
    (∀ (S B : ℕ) (te obs act' : Tensor),
      te.isShape [S, B, ted] = true → obs.isShape [S, B, o] = true →
      act'.isShape [S, B, a] = true →
      ∃ raw op rp,
        dec.rawOutput tanhFn lnFn te obs act' = .ok raw ∧
        dec.forward tanhFn lnFn te obs act' = .ok (op, rp) ∧
        raw.isShape [S, B, o + r] = true ∧ op.isShape [S, B, o] = true ∧
        rp.isShape [S, B, r] = true ∧ tcat op rp = .ok raw) := by
  constructor
  · intro B te obs act' hte hobs hact
    exact decoder_forward_shape2 hmk hln hdec hte hobs hact
  · intro S B te obs act' hte hobs hact
    exact decoder_forward_shape3 hmk hln hdec hte hobs hact

/-- Witness for C3: a concrete decoder and concrete 3-D inputs. -/
theorem claim_C3_decoder_split_witness :
    ∃ raw op rp,
      TaskDecoder.rawOutput id idLn
        ⟨1, 1, [Layer.linear [[0, 0, 0], [0, 0, 0]] [0, 0], Layer.layerNorm 2]⟩
        (.t3 [[[1]]]) (.t3 [[[2]]]) (.t3 [[[3]]]) = .ok raw ∧
      TaskDecoder.forward id idLn
        ⟨1, 1, [Layer.linear [[0, 0, 0], [0, 0, 0]] [0, 0], Layer.layerNorm 2]⟩
        (.t3 [[[1]]]) (.t3 [[[2]]]) (.t3 [[[3]]]) = .ok (op, rp) ∧
      raw.isShape [1, 1, 1 + 1] = true ∧ op.isShape [1, 1, 1] = true ∧
      rp.isShape [1, 1, 1] = true ∧ tcat op rp = .ok raw := by
  have h : TaskDecoder.init zeroMk 1 1 1 1 "relu"
      = Except.ok
        ⟨1, 1, [Layer.linear [[0, 0, 0], [0, 0, 0]] [0, 0], Layer.layerNorm 2]⟩ := by
    rfl
  exact (claim_C3_decoder_split id idLn zeroMk_wf idLn_wf h).2
    1 1 (.t3 [[[1]]]) (.t3 [[[2]]]) (.t3 [[[3]]])
    (by decide) (by decide) (by decide)

/-- C4: on every forward call whose pre-split output stack result has rank
2 or 3 (the supported batched shapes), the returned `task_embedding` — the
concatenation of `mu` and `log_var` along the feature axis — is elementwise
identical to that raw pre-split output: splitting the final axis at
`task_emb_dim` and re-concatenating the two halves is the identity, so
`forward` returns the pre-split tensor itself as its first component. -/
theorem claim_C4_task_embedding_identity
    (expFn : ℚ → ℚ) {tanhFn : ℚ → ℚ} {lnFn : ℕ → List ℚ → List ℚ}
    {randnLike : Tensor → Tensor}
    (hrnd : ∀ t, (randnLike t).rank = t.rank)
    {enc : VAETaskEncoder} {obs act' rew x : Tensor}
    (hpre : enc.preOutput tanhFn lnFn obs act' rew = .ok x)
    (hrank : x.rank = 2 ∨ x.rank = 3) :
    ∃ mu lv z,
      enc.forward tanhFn lnFn expFn randnLike obs act' rew
        = .ok (x, mu, lv, z) := by
  cases x with
  | t1 v => simp [Tensor.rank] at hrank
  | t2 X =>
      have hte : tcat (.t2 (X.map (List.take enc.task_emb_dim)))
          (.t2 (X.map (List.drop enc.task_emb_dim))) = .ok (.t2 X) := by
        simp [tcat, zipWith_append_take_drop]
      obtain ⟨z, hz⟩ := reparameterise_some_of_rank expFn hrnd
        (.t2 (X.map (List.take enc.task_emb_dim)))
        (.t2 (X.map (List.drop enc.task_emb_dim))) rfl
      exact ⟨_, _, z, forward_ok2 hpre hte hz⟩
  | t3 X =>
      have hlen : (List.zip (X.map (·.map (List.take enc.task_emb_dim)))
          (X.map (·.map (List.drop enc.task_emb_dim)))).all
          (fun p => p.1.length == p.2.length) = true := by
        rw [List.all_eq_true]
        intro p hp
        rw [List.zip_map'] at hp
        rcases List.mem_map.1 hp with ⟨q, hq, hq1⟩
        rw [← hq1]
        simp
      have hte : tcat (.t3 (X.map (·.map (List.take enc.task_emb_dim))))
          (.t3 (X.map (·.map (List.drop enc.task_emb_dim)))) = .ok (.t3 X) := by
        simp [tcat, hlen, zipWith_append_take_drop3]
      obtain ⟨z, hz⟩ := reparameterise_some_of_rank expFn hrnd
        (.t3 (X.map (·.map (List.take enc.task_emb_dim))))
        (.t3 (X.map (·.map (List.drop enc.task_emb_dim)))) rfl
      exact ⟨_, _, z, forward_ok3 hpre hte hz⟩

/-- Witness for C4 at a concrete encoder and input batch: `forward` returns
the pre-split stack output itself as `task_embedding`. -/
theorem claim_C4_task_embedding_identity_witness :
    ∃ X mu lv z,
      VAETaskEncoder.preOutput id idLn
        ⟨false, 1, true,
          some [Layer.linear [[0, 0, 0]] [0], Layer.layerNorm 1, Layer.relu],
          [Layer.linear [[0], [0]] [0, 0], Layer.layerNorm 2, Layer.relu], none⟩
        (.t2 [[1]]) (.t2 [[2]]) (.t2 [[3]]) = .ok (.t2 X) ∧
      VAETaskEncoder.forward id idLn id id
        ⟨false, 1, true,
          some [Layer.linear [[0, 0, 0]] [0], Layer.layerNorm 1, Layer.relu],
          [Layer.linear [[0], [0]] [0, 0], Layer.layerNorm 2, Layer.relu], none⟩
        (.t2 [[1]]) (.t2 [[2]]) (.t2 [[3]]) = .ok (.t2 X, mu, lv, z) := by
  obtain ⟨X, hpre⟩ :
      ∃ X, VAETaskEncoder.preOutput id idLn
        ⟨false, 1, true,
          some [Layer.linear [[0, 0, 0]] [0], Layer.layerNorm 1, Layer.relu],
          [Layer.linear [[0], [0]] [0, 0], Layer.layerNorm 2, Layer.relu], none⟩
        (.t2 [[1]]) (.t2 [[2]]) (.t2 [[3]]) = .ok (.t2 X) := ⟨_, rfl⟩
  obtain ⟨mu, lv, z, hf⟩ :=
    claim_C4_task_embedding_identity id (fun _ => rfl) hpre (Or.inl rfl)
  exact ⟨X, mu, lv, z, hpre, hf⟩

/-- C8 counterexample: on a concrete rank-1 input triple, the decoder stack
runs to completion (`rawOutput` succeeds) and `forward` then fails with an
`UnboundLocalError` at the return statement — not with a `ShapeMismatch`
detected eagerly before any computation of the decoder stack. -/
theorem claim_C8_counterexample :
    TaskDecoder.init zeroMk 1 1 1 1 "relu"
      = Except.ok
        ⟨1, 1, [Layer.linear [[0, 0, 0], [0, 0, 0]] [0, 0], Layer.layerNorm 2]⟩ ∧
    (∃ val, TaskDecoder.rawOutput id idLn
      ⟨1, 1, [Layer.linear [[0, 0, 0], [0, 0, 0]] [0, 0], Layer.layerNorm 2]⟩
      (.t1 [1]) (.t1 [2]) (.t1 [3]) = .ok (.t1 val)) ∧
    TaskDecoder.forward id idLn
      ⟨1, 1, [Layer.linear [[0, 0, 0], [0, 0, 0]] [0, 0], Layer.layerNorm 2]⟩
      (.t1 [1]) (.t1 [2]) (.t1 [3])
      = .error
          "UnboundLocalError: local variable 'obs_pred' referenced before assignment" := by
  exact ⟨rfl, ⟨_, rfl⟩, rfl⟩

/-- C8 (amended): a rank-1 input triple makes `TaskDecoder.forward` fail,
but the failure is an `UnboundLocalError` raised at the `return` after the
decoder stack has been fully applied to the concatenated input (`rawOutput`
succeeds on the same input); the rank branch inspects the stack's output
`out.dim()`, so the bad rank is not detected eagerly at the start of the
call and no partial computation is avoided. -/
theorem claim_C8_amended_rank_error_after_stack
    (tanhFn : ℚ → ℚ) (lnFn : ℕ → List ℚ → List ℚ) (dec : TaskDecoder)
    (va vb vc : List ℚ) :
    (∃ raw, dec.rawOutput tanhFn lnFn (.t1 va) (.t1 vb) (.t1 vc)
        = .ok raw) ∧
    dec.forward tanhFn lnFn (.t1 va) (.t1 vb) (.t1 vc)
      = .error
          "UnboundLocalError: local variable 'obs_pred' referenced before assignment" := by
  exact ⟨⟨_, rfl⟩, rfl⟩

/-- C10: the `layer_norm` constructor argument has no effect on the
non-recurrent encoder's stacks — both `build_sequential` call sites omit it,
so its default `True` applies: constructing with any other `layer_norm`
value yields identical `input_fc`/`output_fc` stacks; every linear layer in
those stacks is immediately followed by a `LayerNorm`; and the decoder's
stack is exactly its single linear layer followed by a `LayerNorm`, so the
decoder's raw output is the layer-normalised (not raw) linear output. -/
theorem claim_C10_layer_norm_always_on :
    (∀ (mk : ℕ → ℕ → List (List ℚ) × List ℚ) (o a r ted : ℕ)
        (hiddens : List ℕ) (act : String) (ln ln' : Bool)
        (enc : VAETaskEncoder),
      VAETaskEncoder.init mk o a r ted hiddens act ln = .ok enc →
      VAETaskEncoder.init mk o a r ted hiddens act ln'
        = .ok ⟨enc.use_rnn, enc.task_emb_dim, ln', enc.input_fc,
               enc.output_fc, enc.rnn_hidden_dim⟩) ∧
    (∀ (mk : ℕ → ℕ → List (List ℚ) × List ℚ) (o a r ted : ℕ)
        (hiddens : List ℕ) (act : String) (ln : Bool)
        (enc : VAETaskEncoder) (ifc : List Layer),
      VAETaskEncoder.init mk o a r ted hiddens act ln = .ok enc →
      enc.input_fc = some ifc →
      linearsFollowedByLN ifc = true ∧
      linearsFollowedByLN enc.output_fc = true) ∧
    (∀ (mk : ℕ → ℕ → List (List ℚ) × List ℚ) (ted o a r : ℕ) (act : String)
        (dec : TaskDecoder),
      TaskDecoder.init mk ted o a r act = .ok dec →
      dec.decoder = [Layer.linear (mk (ted + o + a) (o + r)).1
          (mk (ted + o + a) (o + r)).2, Layer.layerNorm (o + r)]) := by
  refine ⟨?_, ?_, ?_⟩
  · intro mk o a r ted hiddens act ln ln' enc h
    obtain ⟨h0, rest, ifc, ofc, hhid, hifc, hofc, hencEq⟩ := init_ok_destruct h
    subst hhid
    subst hencEq
    simp [VAETaskEncoder.init, bind, Except.bind, hifc, hofc]
  · intro mk o a r ted hiddens act ln enc ifc h hifc0
    obtain ⟨h0, rest, ifc', ofc, hhid, hifc, hofc, hencEq⟩ := init_ok_destruct h
    subst hencEq
    simp only [Option.some.injEq] at hifc0
    subst hifc0
    exact ⟨build_sequential_linears_followed hifc,
      build_sequential_linears_followed hofc⟩
  · intro mk ted o a r act dec h
    obtain ⟨ds, hds, hdecEq⟩ := decoder_init_ok_destruct h
    subst hdecEq
    exact build_sequential_singleton hds

/-- Witness for C10 at a concrete construction: the same stacks arise for
`layer_norm = True` and `layer_norm = False`, they satisfy the
linear-followed-by-LayerNorm property, and the decoder stack is
`[Linear, LayerNorm]`. -/
theorem claim_C10_layer_norm_always_on_witness :
    VAETaskEncoder.init zeroMk 1 1 1 1 [1] "relu" false
      = .ok ⟨false, 1, false,
        some [Layer.linear [[0, 0, 0]] [0], Layer.layerNorm 1, Layer.relu],
        [Layer.linear [[0], [0]] [0, 0], Layer.layerNorm 2, Layer.relu], none⟩ ∧
    (linearsFollowedByLN
        [Layer.linear [[0, 0, 0]] [0], Layer.layerNorm 1, Layer.relu] = true ∧
     linearsFollowedByLN
        [Layer.linear [[0], [0]] [0, 0], Layer.layerNorm 2, Layer.relu] = true) ∧
    TaskDecoder.init zeroMk 1 1 1 1 "relu"
      = Except.ok
        ⟨1, 1, [Layer.linear [[0, 0, 0], [0, 0, 0]] [0, 0], Layer.layerNorm 2]⟩ ∧
    (⟨1, 1, [Layer.linear [[0, 0, 0], [0, 0, 0]] [0, 0],
        Layer.layerNorm 2]⟩ : TaskDecoder).decoder
      = [Layer.linear (zeroMk (1 + 1 + 1) (1 + 1)).1
          (zeroMk (1 + 1 + 1) (1 + 1)).2, Layer.layerNorm (1 + 1)] := by
  have henc : VAETaskEncoder.init zeroMk 1 1 1 1 [1] "relu" true
      = Except.ok ⟨false, 1, true,
        some [Layer.linear [[0, 0, 0]] [0], Layer.layerNorm 1, Layer.relu],
        [Layer.linear [[0], [0]] [0, 0], Layer.layerNorm 2, Layer.relu], none⟩ := by
    rfl
  have hdec : TaskDecoder.init zeroMk 1 1 1 1 "relu"
      = Except.ok
        ⟨1, 1, [Layer.linear [[0, 0, 0], [0, 0, 0]] [0, 0], Layer.layerNorm 2]⟩ := by
    rfl
  refine ⟨claim_C10_layer_norm_always_on.1 zeroMk 1 1 1 1 [1] "relu" true false
      _ henc, ?_, hdec,
    claim_C10_layer_norm_always_on.2.2 zeroMk 1 1 1 1 "relu" _ hdec⟩
  exact claim_C10_layer_norm_always_on.2.1 zeroMk 1 1 1 1 [1] "relu" true
    _ _ henc rfl
